import Mathlib

/-!
# ffmpegOpenCV: the capture-to-file encoding pipeline of `main`

A shallow embedding of `src/ffmpegOpenCV/main.cpp`.  The program is one
function, `main`, that talks to three external collaborators (the camera and
key polling of OpenCV, the codec and the container writer of FFmpeg).  The
embedding makes every answer of a collaborator an input (`Env`) and records
every call `main` makes as an `Event`, in program order.  The two loops of
`main` are bounded by a fuel argument; a run that needs more steps than the
fuel allows is cut off with outcome `outOfFuel`, and its trace is the trace
of the real run up to that point; a run that ended is the same for every
larger fuel (`main_fuel_stable`).

Not modelled: the pixel data, the contents of the output file, the codec
options (`av_dict_set`, lines 84-88), and the destructors that run when
`main` returns.  Calls whose result `main` never looks at are recorded with
the result all the same.
-/

namespace FfmpegOpenCV

/-! ## Data -/

/-- Rational number of FFmpeg (`AVRational`): numerator and denominator. -/
structure AVRational where
  num : Int
  den : Int
deriving DecidableEq, Repr

/-- Compressed packet (`AVPacket`): an opaque payload, here an identifier,
the presentation and decode timestamps, and the stream index. -/
structure AVPacket where
  data : Nat
  pts : Int
  dts : Int
  stream_index : Int
deriving DecidableEq, Repr

/-- Lines that `main` writes to standard error, one constructor per
`std::cerr << ... << std::endl` statement (source line in the name's comment). -/
inductive ErrLine
  /-- line 39: "Failed to open VideoCapture." -/
  | failedToOpenVideoCapture
  /-- line 53: "Failed to alloc memory for output. avformat_alloc_output_context2(...): ret=" -/
  | failedToAllocOutput
  /-- line 60: "Failed to open IO context. avio_open2(): ret=" -/
  | failedToOpenIOContext
  /-- line 71: "Could not allocate video codec context. avcodec_alloc_context3()" -/
  | couldNotAllocateCodecContext
  /-- line 93: "Failed to open video encorder. avcodec_open2() : ret=" -/
  | failedToOpenEncoder
  /-- line 110: "Failed to create video stream. avformat_new_stream()." -/
  | failedToCreateStream
  /-- line 128: "Failed to initialize samplesws_getCachedContext()" -/
  | failedToInitializeScaler
  /-- line 169: "Error encoding frame" -/
  | errorEncodingFrame
  /-- line 178: "Error during encoding" -/
  | errorDuringEncoding
deriving DecidableEq, Repr

/-- One observable action of `main`: a call into OpenCV or FFmpeg (with the
answer the collaborator gave, where `main` receives one) or a write to a
standard stream.  Constructors carry the names of the calls in the source. -/
inductive Event
  /-- lines 18-19: the usage text on standard output -/
  | cout_usage
  /-- line 25 -/
  | av_register_all
  /-- line 37: `cv::VideoCapture video_capture(0)`, with `isOpened()` -/
  | VideoCapture_open (opened : Bool)
  /-- a line on standard error -/
  | cerr (line : ErrLine)
  /-- lines 42-43: the two `video_capture.set` calls -/
  | VideoCapture_set
  /-- line 51, with its return code -/
  | avformat_alloc_output_context2 (ret : Int)
  /-- line 58, with its return code -/
  | avio_open2 (ret : Int)
  /-- line 65, with whether an encoder was found -/
  | avcodec_find_encoder (found : Bool)
  /-- line 69, with whether a context was returned -/
  | avcodec_alloc_context3 (allocated : Bool)
  /-- line 91, with its return code -/
  | avcodec_open2 (ret : Int)
  /-- lines 97-105: the session summary on standard output -/
  | cout_summary
  /-- line 108, with whether a stream was returned -/
  | avformat_new_stream (created : Bool)
  /-- line 118, with its return code (which `main` drops) -/
  | avcodec_parameters_from_context (ret : Int)
  /-- line 121, with its return code (which `main` drops) -/
  | avformat_write_header (ret : Int)
  /-- line 124, with whether a context was returned -/
  | sws_getCachedContext (created : Bool)
  /-- line 133, with whether a frame was returned -/
  | av_frame_alloc (allocated : Bool)
  /-- line 135, with whether a buffer was returned -/
  | av_mallocz (allocated : Bool)
  /-- line 136 -/
  | av_image_fill_arrays
  /-- line 137: `av_freep(buffer)` -/
  | av_freep
  /-- line 149: `video_capture >> image` -/
  | capture
  /-- line 150 -/
  | imshow
  /-- line 151: `cv::waitKey(33)`, with the key code returned -/
  | waitKey (key : Int)
  /-- line 157 -/
  | sws_scale
  /-- line 164 -/
  | av_init_packet
  /-- line 167: `frame` is the `pts` of the submitted frame, or `none` for
  the null frame (the flush signal); `ret` is the return code -/
  | avcodec_send_frame (frame : Option Int) (ret : Int)
  /-- line 174, with its return code and the packet as the codec left it
  (meaningful when `ret` is not negative) -/
  | avcodec_receive_packet (ret : Int) (packet : AVPacket)
  /-- line 186, with the packet handed to the container writer -/
  | av_write_frame (packet : AVPacket)
  /-- line 187: the progress counter on standard output -/
  | cout_progress (encoded_frames : Nat)
  /-- line 189 -/
  | av_packet_unref
  /-- line 195 -/
  | av_write_trailer
  /-- line 196: the final count on standard output -/
  | cout_frames_encoded (encoded_frames : Nat)
  /-- line 198 -/
  | av_frame_free
  /-- line 199 -/
  | avcodec_close
  /-- line 200 -/
  | avio_close
  /-- line 201 -/
  | avformat_free_context
deriving DecidableEq, Repr

/-- How a run ends: `main` returned `code`; the run executed an operation
whose behaviour C++ leaves undefined (a null pointer dereference, a signed
overflow); or the fuel of the model ran out before the run ended. -/
inductive Outcome
  | exit (code : Int)
  | undefinedBehaviour
  | outOfFuel
deriving DecidableEq, Repr

/-- A run of `main`: what it did, in order, and how it ended. -/
structure Run where
  trace : List Event
  outcome : Outcome
deriving DecidableEq, Repr

/-- Everything `main` receives from outside.  The answers of the calls made
inside the loops are indexed by the number of earlier calls of the same
function, so that any sequence of answers can be given. -/
structure Env where
  /-- the value of `argc` -/
  argc : Int
  /-- value of `video_capture.isOpened()` at line 38 -/
  cameraOpened : Bool
  /-- return code of `avformat_alloc_output_context2`, line 51 -/
  allocOutputRet : Int
  /-- return code of `avio_open2`, line 58 -/
  avioOpenRet : Int
  /-- whether `avcodec_find_encoder` returned a non-null codec, line 65 -/
  encoderFound : Bool
  /-- whether `avcodec_alloc_context3` returned a non-null context, line 69 -/
  codecContextAllocated : Bool
  /-- return code of `avcodec_open2`, line 91 -/
  codecOpenRet : Int
  /-- value of `codec_context->time_base` as `avcodec_open2` leaves it, given the
  value `main` stored at line 78 -/
  codecTimeBase : AVRational → AVRational
  /-- whether `avformat_new_stream` returned a non-null stream, line 108 -/
  streamCreated : Bool
  /-- return code of `avcodec_parameters_from_context`, line 118 -/
  parametersRet : Int
  /-- return code of `avformat_write_header`, line 121 -/
  writeHeaderRet : Int
  /-- value of `video_stream->time_base` as `avformat_write_header` leaves it, given
  the value `main` stored at line 114 -/
  streamTimeBase : AVRational → AVRational
  /-- whether `sws_getCachedContext` returned a non-null context, line 124 -/
  scalerCreated : Bool
  /-- whether `av_frame_alloc` returned a non-null frame, line 133 -/
  frameAllocated : Bool
  /-- whether `av_mallocz` returned a non-null buffer, line 135 -/
  bufferAllocated : Bool
  /-- key code returned by the n-th call of `cv::waitKey(33)`, line 151 -/
  waitKey : Nat → Int
  /-- return code of the n-th call of `avcodec_send_frame`, line 167 -/
  sendRet : Nat → Int
  /-- return code of the n-th call of `avcodec_receive_packet`, line 174 -/
  receiveRet : Nat → Int
  /-- packet filled in by the n-th call of `avcodec_receive_packet` -/
  receivePacket : Nat → AVPacket

/-! ## Constants and library functions -/

/-- Output frame rate, line 33: `const AVRational dst_fps = { 24, 1 }`. -/
def dst_fps : AVRational := ⟨24, 1⟩

/-- Inverse of a rational (`av_inv_q` of libavutil/rational.h): numerator and
denominator exchanged. -/
def av_inv_q (q : AVRational) : AVRational := ⟨q.den, q.num⟩

/-- Modelled from the spec: the code with which the codec reports "no more
output currently available"; libavutil/error.h is not part of the
repository, the value is that of `AVERROR(EAGAIN)`. -/
def AVERROR_EAGAIN : Int := -11

/-- Modelled from the spec: the code with which the codec reports the
definitive end of stream; libavutil/error.h is not part of the repository,
the value is that of `AVERROR_EOF`. -/
def AVERROR_EOF : Int := -541478725

/-- Key code of ESC, line 151: `0x1b`. -/
def KEY_ESC : Int := 0x1b

/-- Largest value of `int64_t`, the type of `frame_pts` (line 143). -/
def INT64_MAX : Int := 2 ^ 63 - 1

/-- Number of values of `unsigned`, the type of `encoded_frames` (line 144):
32 bits on the platform of the source (it includes windows.h). -/
def UINT_SIZE : Nat := 2 ^ 32

/-- Quotient `n / d` rounded to the nearest integer, a tie rounded away from
zero; `d` is positive. -/
def roundNearAwayFromZero (n d : Int) : Int :=
  if 0 ≤ n then (2 * n + d) / (2 * d) else -((2 * (-n) + d) / (2 * d))

/-- Modelled from the spec: the timestamp rescale of FFmpeg
(`av_rescale_q`, not part of the repository), section 4.3:
`new_ts = old_ts * (old_base / new_base)`, rounded to nearest, a tie away
from zero.  With `old_base = a.num / a.den` and `new_base = b.num / b.den`
the exact quotient is `ts * (a.num * b.den) / (a.den * b.num)`. -/
def av_rescale_q (ts : Int) (a b : AVRational) : Int :=
  roundNearAwayFromZero (ts * (a.num * b.den)) (a.den * b.num)

/-- Modelled from the spec: `av_packet_rescale_ts` of FFmpeg (not part of
the repository), section 9: the two timestamp fields of the packet are
rescaled, nothing else changes. -/
def av_packet_rescale_ts (pkt : AVPacket) (src_tb dst_tb : AVRational) : AVPacket :=
  { pkt with pts := av_rescale_q pkt.pts src_tb dst_tb,
             dts := av_rescale_q pkt.dts src_tb dst_tb }

/-! ## The loops of `main` -/

/-- What the inner loop leaves behind: the events it produced, the number of
`avcodec_receive_packet` calls made so far, `encoded_frames`, and whether the
loop ended (`false`: the fuel ran out first). -/
structure DrainResult where
  events : List Event
  receives : Nat
  encoded_frames : Nat
  finished : Bool
deriving DecidableEq, Repr

/-- Inner loop, lines 172-190: `while (ret >= 0) { ... }`.
`ret` is the value of the variable on entry to the loop test, `receives` the
number of receive calls made before, `codec_tb` and `stream_tb` the two
time-bases read at line 184. -/
def drain (env : Env) (codec_tb stream_tb : AVRational) :
    Nat → Int → Nat → Nat → DrainResult
  | 0, _, receives, encoded_frames => ⟨[], receives, encoded_frames, false⟩
  | fuel + 1, ret, receives, encoded_frames =>
    if 0 ≤ ret then
      let ret1 := env.receiveRet receives
      let packet := env.receivePacket receives
      if ret1 = AVERROR_EAGAIN ∨ ret1 = AVERROR_EOF then
        ⟨[.avcodec_receive_packet ret1 packet], receives + 1, encoded_frames, true⟩
      else if ret1 < 0 then
        ⟨[.avcodec_receive_packet ret1 packet, .cerr .errorDuringEncoding],
          receives + 1, encoded_frames, true⟩
      else
        let packet1 := { packet with stream_index := 0 }
        let packet2 := av_packet_rescale_ts packet1 codec_tb stream_tb
        let rest := drain env codec_tb stream_tb fuel ret1 (receives + 1)
          ((encoded_frames + 1) % UINT_SIZE)
        ⟨[.avcodec_receive_packet ret1 packet, .av_write_frame packet2,
            .cout_progress encoded_frames, .av_packet_unref] ++ rest.events,
          rest.receives, rest.encoded_frames, rest.finished⟩
    else
      ⟨[], receives, encoded_frames, true⟩

/-- Local variables of `main` that live across iterations of the outer loop,
and the numbers of calls made so far to the three indexed collaborators. -/
structure LoopState where
  frame_pts : Int
  encoded_frames : Nat
  is_flushing : Bool
  waitKeys : Nat
  sends : Nat
  receives : Nat
deriving DecidableEq, Repr

/-- How the outer loop ended. -/
inductive LoopEnd
  /-- the loop was left, by `break` or by its condition -/
  | left
  /-- the increment `frame_pts++` overflowed `int64_t` -/
  | undefinedBehaviour
  /-- the fuel ran out -/
  | outOfFuel
deriving DecidableEq, Repr

/-- What one pass through the body of the outer loop leaves behind: the
events, the local variables, and, when the pass ended the loop from inside,
how (`none`: the pass reached the loop condition at line 192). -/
structure BodyResult where
  events : List Event
  state : LoopState
  stop : Option LoopEnd
deriving DecidableEq, Repr

/-- What the outer loop leaves behind. -/
structure LoopResult where
  events : List Event
  state : LoopState
  ending : LoopEnd
deriving DecidableEq, Repr

/-- First part of the loop body, lines 147-153: when not flushing, read an
image, show it and poll the keyboard; ESC sets `is_flushing`. -/
def pollFrame (env : Env) (st : LoopState) : List Event × LoopState :=
  if !st.is_flushing then
    let key := env.waitKey st.waitKeys
    ([.capture, .imshow, .waitKey key],
      { st with waitKeys := st.waitKeys + 1,
                is_flushing := if key = KEY_ESC then true else st.is_flushing })
  else
    ([], st)

/-- Second part of the loop body, lines 160-190: set up the packet, submit
`frame` (`none`: the null frame) and receive packets.  `fuel` bounds the
inner loop. -/
def sendAndDrain (env : Env) (codec_tb stream_tb : AVRational) (fuel : Nat)
    (frame : Option Int) (st : LoopState) : BodyResult :=
  let ret := env.sendRet st.sends
  let st1 : LoopState := { st with sends := st.sends + 1 }
  let sent : List Event := [.av_init_packet, .avcodec_send_frame frame ret]
  if ret < 0 then
    -- lines 168-171: `break` out of the outer loop
    ⟨sent ++ [.cerr .errorEncodingFrame], st1, some .left⟩
  else
    -- lines 172-190
    let drained := drain env codec_tb stream_tb fuel ret st1.receives st1.encoded_frames
    let st2 : LoopState :=
      { st1 with receives := drained.receives, encoded_frames := drained.encoded_frames }
    if !drained.finished then
      ⟨sent ++ drained.events, st2, some .outOfFuel⟩
    else
      ⟨sent ++ drained.events, st2, none⟩

/-- Body of the outer loop, lines 147-191.  When `is_flushing` is not set
after the poll, lines 154-159 convert the image and stamp the frame with
`frame_pts++`, and line 167 submits the frame; when it is set, line 167
submits the null frame. -/
def loopBody (env : Env) (codec_tb stream_tb : AVRational) (fuel : Nat)
    (st : LoopState) : BodyResult :=
  let polled := pollFrame env st
  let st1 := polled.2
  if !st1.is_flushing then
    if INT64_MAX ≤ st1.frame_pts then
      -- line 158: `frame_pts++` at the largest value of `int64_t`
      ⟨polled.1 ++ [.sws_scale], st1, some .undefinedBehaviour⟩
    else
      let sent := sendAndDrain env codec_tb stream_tb fuel (some st1.frame_pts)
        { st1 with frame_pts := st1.frame_pts + 1 }
      ⟨polled.1 ++ [.sws_scale] ++ sent.events, sent.state, sent.stop⟩
  else
    let sent := sendAndDrain env codec_tb stream_tb fuel none st1
    ⟨polled.1 ++ sent.events, sent.state, sent.stop⟩

/-- Outer loop, lines 146-192: `do { ... } while (!is_flushing)`. -/
def encodeLoop (env : Env) (codec_tb stream_tb : AVRational) :
    Nat → LoopState → LoopResult
  | 0, st => ⟨[], st, .outOfFuel⟩
  | fuel + 1, st =>
    let body := loopBody env codec_tb stream_tb fuel st
    match body.stop with
    | some ending => ⟨body.events, body.state, ending⟩
    | none =>
      if !body.state.is_flushing then
        -- line 192: the condition holds, next pass
        let rest := encodeLoop env codec_tb stream_tb fuel body.state
        ⟨body.events ++ rest.events, rest.state, rest.ending⟩
      else
        ⟨body.events, body.state, .left⟩

/-- Values of the local variables on entry to the outer loop, lines 143-145. -/
def loopStart : LoopState :=
  { frame_pts := 0, encoded_frames := 0, is_flushing := false,
    waitKeys := 0, sends := 0, receives := 0 }

/-! ## `main` -/

/-- Result of the part of `main` before the loop: it either ended the run
(`stop`) or reached the loop (`ready`) with the events so far. -/
inductive SetupResult
  | stop (events : List Event) (outcome : Outcome)
  | ready (events : List Event)
deriving DecidableEq, Repr

/-- Lines 17-140 of `main`: argument check, camera, output context, output
I/O, encoder, stream, header, scaler and frame buffer. -/
def setup (env : Env) : SetupResult :=
  if env.argc < 2 then
    .stop [.cout_usage] (.exit 1)
  else
  let e1 : List Event := [.av_register_all, .VideoCapture_open env.cameraOpened]
  if !env.cameraOpened then
    .stop (e1 ++ [.cerr .failedToOpenVideoCapture]) (.exit 2)
  else
  let e2 := e1 ++ [.VideoCapture_set, .avformat_alloc_output_context2 env.allocOutputRet]
  if env.allocOutputRet < 0 then
    .stop (e2 ++ [.cerr .failedToAllocOutput]) (.exit 2)
  else
  let e3 := e2 ++ [.avio_open2 env.avioOpenRet]
  if env.avioOpenRet < 0 then
    .stop (e3 ++ [.cerr .failedToOpenIOContext]) (.exit 2)
  else
  let e4 := e3 ++ [.avcodec_find_encoder env.encoderFound,
    .avcodec_alloc_context3 env.codecContextAllocated]
  if !env.codecContextAllocated then
    .stop (e4 ++ [.cerr .couldNotAllocateCodecContext]) (.exit 2)
  else
  let e5 := e4 ++ [.avcodec_open2 env.codecOpenRet]
  if env.codecOpenRet < 0 then
    .stop (e5 ++ [.cerr .failedToOpenEncoder]) (.exit 2)
  else
  if !env.encoderFound then
    -- line 100: `video_codec->name` with a null `video_codec`
    .stop e5 .undefinedBehaviour
  else
  let e6 := e5 ++ [.cout_summary, .avformat_new_stream env.streamCreated]
  if !env.streamCreated then
    .stop (e6 ++ [.cerr .failedToCreateStream]) (.exit 2)
  else
  let e7 := e6 ++ [.avcodec_parameters_from_context env.parametersRet,
    .avformat_write_header env.writeHeaderRet,
    .sws_getCachedContext env.scalerCreated]
  if !env.scalerCreated then
    .stop (e7 ++ [.cerr .failedToInitializeScaler]) (.exit 2)
  else
  let e8 := e7 ++ [.av_frame_alloc env.frameAllocated, .av_mallocz env.bufferAllocated]
  if !env.frameAllocated then
    -- line 136: `frame->data` with a null `frame`
    .stop e8 .undefinedBehaviour
  else
  let e9 := e8 ++ [.av_image_fill_arrays]
  if !env.bufferAllocated then
    -- line 137: `av_freep` reads through a null `buffer`
    .stop e9 .undefinedBehaviour
  else
    .ready (e9 ++ [.av_freep])

/-- Lines 194-203 of `main`: trailer, final count, release calls. -/
def finish (encoded_frames : Nat) : List Event :=
  [.av_write_trailer, .cout_frames_encoded encoded_frames,
    .av_frame_free, .avcodec_close, .avio_close, .avformat_free_context]

/-- Lines 143-192 of `main`: the outer loop, started with the local
variables as initialised and with the time-bases the two contexts hold. -/
def mainLoop (env : Env) (fuel : Nat) : LoopResult :=
  encodeLoop env (env.codecTimeBase (av_inv_q dst_fps))
    (env.streamTimeBase (av_inv_q dst_fps)) fuel loopStart

/-- The program: `main` of src/ffmpegOpenCV/main.cpp. -/
def main (env : Env) (fuel : Nat) : Run :=
  match setup env with
  | .stop events outcome => ⟨events, outcome⟩
  | .ready events =>
    let looped := mainLoop env fuel
    match looped.ending with
    | .left => ⟨events ++ looped.events ++ finish looped.state.encoded_frames, .exit 0⟩
    | .undefinedBehaviour => ⟨events ++ looped.events, .undefinedBehaviour⟩
    | .outOfFuel => ⟨events ++ looped.events, .outOfFuel⟩

/-! ## Observations on a trace -/

/-- Return code of a stream header write (`avformat_write_header`). -/
def asHeaderWrite : Event → Option Int
  | .avformat_write_header ret => some ret
  | _ => none

/-- Packet of a packet write (`av_write_frame`). -/
def asWritten : Event → Option AVPacket
  | .av_write_frame packet => some packet
  | _ => none

/-- Frame of a submission to the codec (`avcodec_send_frame`): `some pts`
for a frame, `none` for the flush signal. -/
def asSubmission : Event → Option (Option Int)
  | .avcodec_send_frame frame _ => some frame
  | _ => none

/-- Packet of a receive call that returned one (`avcodec_receive_packet`
with a return code that is not negative). -/
def asReceived : Event → Option AVPacket
  | .avcodec_receive_packet ret packet => if 0 ≤ ret then some packet else none
  | _ => none

/-- Key code of a keyboard poll (`cv::waitKey`). -/
def asKey : Event → Option Int
  | .waitKey key => some key
  | _ => none

/-- Line of a write to standard error. -/
def asErrLine : Event → Option ErrLine
  | .cerr line => some line
  | _ => none

/-- Count of a final report (line 196). -/
def asFinalCount : Event → Option Nat
  | .cout_frames_encoded n => some n
  | _ => none

/-- Return codes of the stream header writes of a trace, in order. -/
def headerWrites (trace : List Event) : List Int := trace.filterMap asHeaderWrite

/-- Packets handed to the container writer, in order. -/
def writtenPackets (trace : List Event) : List AVPacket := trace.filterMap asWritten

/-- Submissions to the codec, in order. -/
def submissions (trace : List Event) : List (Option Int) := trace.filterMap asSubmission

/-- Packets the codec returned, in order. -/
def receivedPackets (trace : List Event) : List AVPacket := trace.filterMap asReceived

/-- Timestamps of the frames submitted to the codec, in order (the flush
signal carries none). -/
def framePts (trace : List Event) : List Int := (submissions trace).filterMap id

/-- Number of flush signals submitted to the codec. -/
def flushCount (trace : List Event) : Nat := (submissions trace).count none

/-- Key codes polled, in order. -/
def keysPolled (trace : List Event) : List Int := trace.filterMap asKey

/-- Lines written to standard error, in order. -/
def errLines (trace : List Event) : List ErrLine := trace.filterMap asErrLine

/-- What lines 182-184 make of a packet received from the codec before it
is handed to the container writer: stream index 0, timestamps rescaled from
the codec time-base to the stream time-base. -/
def forwarded (codec_tb stream_tb : AVRational) (packet : AVPacket) : AVPacket :=
  av_packet_rescale_ts { packet with stream_index := 0 } codec_tb stream_tb

/-- Count of a final report (line 196) in a trace, in order. -/
def finalCounts (trace : List Event) : List Nat := trace.filterMap asFinalCount

/-- A call to the codec: a submission with the frame (`none`: the flush
signal) and the return code, or a receive call with its return code. -/
inductive CodecCall
  | send (frame : Option Int) (ret : Int)
  | receive (ret : Int)
deriving DecidableEq, Repr

/-- Codec call of an event. -/
def asCodecCall : Event → Option CodecCall
  | .avcodec_send_frame frame ret => some (.send frame ret)
  | .avcodec_receive_packet ret _ => some (.receive ret)
  | _ => none

/-- Calls to the codec of a trace, in order. -/
def codecCalls (trace : List Event) : List CodecCall := trace.filterMap asCodecCall

/-- Return code with which the codec reports that it has no packet to give,
for now (`AVERROR(EAGAIN)`) or for good (`AVERROR_EOF`): the test of line 175. -/
def noMoreOutput (ret : Int) : Prop := ret = AVERROR_EAGAIN ∨ ret = AVERROR_EOF

instance (ret : Int) : Decidable (noMoreOutput ret) :=
  inferInstanceAs (Decidable (ret = AVERROR_EAGAIN ∨ ret = AVERROR_EOF))

/-- Relation between a codec call and the next one, as the two loops produce
them: a receive call comes directly after a submission the codec accepted or
after a receive call that returned a packet; a submission comes directly
after a receive call that returned a negative code, never after another
submission. -/
def receivesUntilNegative : CodecCall → CodecCall → Prop
  | .send _ ret, .receive _ => 0 ≤ ret
  | .receive ret, .receive _ => 0 ≤ ret
  | .receive ret, .send _ _ => ret < 0
  | .send _ _, .send _ _ => False

/-- Relation between a codec call and the next one when everything the codec
makes available is drained before the next submission: a receive call comes
directly after a submission the codec accepted or after a receive call that
returned a packet; a submission comes directly after a receive call with
which the codec reported that it has no more output, never after another
submission. -/
def drainedBefore : CodecCall → CodecCall → Prop
  | .send _ ret, .receive _ => 0 ≤ ret
  | .receive ret, .receive _ => 0 ≤ ret
  | .receive ret, .send _ _ => noMoreOutput ret
  | .send _ _, .send _ _ => False

/-- The call returned a negative code. -/
def returnedNegative : CodecCall → Prop
  | .send _ ret => ret < 0
  | .receive ret => ret < 0

/-- Nothing is left to drain after this call: it is a receive call with
which the codec reported that it has no more output, or a submission the
codec refused (which hands nothing to the codec). -/
def drainEnded : CodecCall → Prop
  | .send _ ret => ret < 0
  | .receive ret => noMoreOutput ret

/-- The call is not a receive call that failed: a receive call returned a
packet or reported that the codec has no more output. -/
def receiveDidNotFail : CodecCall → Prop
  | .send _ _ => True
  | .receive ret => 0 ≤ ret ∨ noMoreOutput ret

instance : DecidableRel receivesUntilNegative
  | .send _ ret, .receive _ => inferInstanceAs (Decidable (0 ≤ ret))
  | .receive ret, .receive _ => inferInstanceAs (Decidable (0 ≤ ret))
  | .receive ret, .send _ _ => inferInstanceAs (Decidable (ret < 0))
  | .send _ _, .send _ _ => inferInstanceAs (Decidable False)

instance : DecidableRel drainedBefore
  | .send _ ret, .receive _ => inferInstanceAs (Decidable (0 ≤ ret))
  | .receive ret, .receive _ => inferInstanceAs (Decidable (0 ≤ ret))
  | .receive ret, .send _ _ => inferInstanceAs (Decidable (noMoreOutput ret))
  | .send _ _, .send _ _ => inferInstanceAs (Decidable False)

instance : DecidablePred returnedNegative
  | .send _ ret => inferInstanceAs (Decidable (ret < 0))
  | .receive ret => inferInstanceAs (Decidable (ret < 0))

instance : DecidablePred drainEnded
  | .send _ ret => inferInstanceAs (Decidable (ret < 0))
  | .receive ret => inferInstanceAs (Decidable (noMoreOutput ret))

instance : DecidablePred receiveDidNotFail
  | .send _ _ => inferInstanceAs (Decidable True)
  | .receive ret => inferInstanceAs (Decidable (0 ≤ ret ∨ noMoreOutput ret))

/-- Resources that `main` acquires. -/
inductive Resource
  | formatContext
  | ioHandle
  | codecContext
  | converterContext
  | frame
  | frameBuffer
deriving DecidableEq, Repr

/-- Resource that an event acquires: a successful allocation or open. -/
def acquires : Event → Option Resource
  | .avformat_alloc_output_context2 ret => if 0 ≤ ret then some .formatContext else none
  | .avio_open2 ret => if 0 ≤ ret then some .ioHandle else none
  | .avcodec_alloc_context3 true => some .codecContext
  | .sws_getCachedContext true => some .converterContext
  | .av_frame_alloc true => some .frame
  | .av_mallocz true => some .frameBuffer
  | _ => none

/-- Resource that an event releases, for the four release calls of lines
198-201.  (`av_freep(buffer)` at line 137 is an event of its own and is not
counted here: it is handed the buffer, where `av_freep` expects the address
of the pointer.) -/
def releases : Event → Option Resource
  | .av_frame_free => some .frame
  | .avcodec_close => some .codecContext
  | .avio_close => some .ioHandle
  | .avformat_free_context => some .formatContext
  | _ => none

/-- Events that the inner loop (lines 172-190) can produce. -/
def inDrain : Event → Bool
  | .avcodec_receive_packet _ _ => true
  | .av_write_frame _ => true
  | .cout_progress _ => true
  | .av_packet_unref => true
  | .cerr .errorDuringEncoding => true
  | _ => false

/-- Events that the outer loop (lines 146-192) can produce. -/
def inLoop : Event → Bool
  | .capture => true
  | .imshow => true
  | .waitKey _ => true
  | .sws_scale => true
  | .av_init_packet => true
  | .avcodec_send_frame _ _ => true
  | .cerr .errorEncodingFrame => true
  | e => inDrain e

/-- Events that the part of `main` before the loop (lines 17-140) can
produce. -/
def inSetup : Event → Bool
  | .cout_usage => true
  | .av_register_all => true
  | .VideoCapture_open _ => true
  | .cerr .failedToOpenVideoCapture => true
  | .cerr .failedToAllocOutput => true
  | .cerr .failedToOpenIOContext => true
  | .cerr .couldNotAllocateCodecContext => true
  | .cerr .failedToOpenEncoder => true
  | .cerr .failedToCreateStream => true
  | .cerr .failedToInitializeScaler => true
  | .VideoCapture_set => true
  | .avformat_alloc_output_context2 _ => true
  | .avio_open2 _ => true
  | .avcodec_find_encoder _ => true
  | .avcodec_alloc_context3 _ => true
  | .avcodec_open2 _ => true
  | .cout_summary => true
  | .avformat_new_stream _ => true
  | .avcodec_parameters_from_context _ => true
  | .avformat_write_header _ => true
  | .sws_getCachedContext _ => true
  | .av_frame_alloc _ => true
  | .av_mallocz _ => true
  | .av_image_fill_arrays => true
  | .av_freep => true
  | _ => false

/-- Events of the part of `main` before the loop. -/
def SetupResult.events : SetupResult → List Event
  | .stop events _ => events
  | .ready events => events

/-- Events after the loop: the release chain when the loop was left, none
when the run was cut off. -/
def tailEvents (looped : LoopResult) : List Event :=
  match looped.ending with
  | .left => finish looped.state.encoded_frames
  | _ => []

/-- Summary of a stretch of events during which `encoded_frames` went from
`c` to `c'`: the packets written are the packets received, each prepared by
lines 182-184, in the same order; and the counter, an `unsigned`, advanced
by the number of packets written, modulo `UINT_SIZE`. -/
def PacketsForwarded (a b : AVRational) (events : List Event) (c c' : Nat) : Prop :=
  writtenPackets events = (receivedPackets events).map (forwarded a b) ∧
    (c < UINT_SIZE → c' < UINT_SIZE ∧ c' = (c + (writtenPackets events).length) % UINT_SIZE)

/-! ## Concrete environments -/

/-- An environment in which every step before the loop succeeds and the
libraries leave the two time-bases as `main` set them; the answers inside
the loop are the arguments. -/
def session (waitKey sendRet receiveRet : Nat → Int) (receivePacket : Nat → AVPacket) : Env :=
  { argc := 2, cameraOpened := true, allocOutputRet := 0, avioOpenRet := 0,
    encoderFound := true, codecContextAllocated := true, codecOpenRet := 0,
    codecTimeBase := fun q => q, streamCreated := true, parametersRet := 0,
    writeHeaderRet := 0, streamTimeBase := fun q => q, scalerCreated := true,
    frameAllocated := true, bufferAllocated := true,
    waitKey := waitKey, sendRet := sendRet, receiveRet := receiveRet,
    receivePacket := receivePacket }

/-- Two frames, then ESC.  The codec returns one packet per submission
(also for the flush signal), then reports that it has no more. -/
def twoFrames : Env :=
  session (fun n => if n < 2 then -1 else KEY_ESC) (fun _ => 0)
    (fun n => if n = 0 ∨ n = 2 ∨ n = 4 then 0 else if n = 5 then AVERROR_EOF else AVERROR_EAGAIN)
    (fun n => ⟨n, n / 2, n / 2, 0⟩)

/-- The capture device does not open. -/
def noCamera : Env :=
  { twoFrames with cameraOpened := false }

/-- The submission of the first frame fails with code -22; no key is
pressed. -/
def sendFails : Env :=
  session (fun _ => -1) (fun _ => -22) (fun _ => AVERROR_EAGAIN) (fun n => ⟨n, 0, 0, 0⟩)

/-- The first receive call fails with code -22 (neither "no output
available" nor end of stream); later receive calls report "no output
available"; ESC is polled in the third pass. -/
def receiveFails : Env :=
  session (fun n => if n < 2 then -1 else KEY_ESC) (fun _ => 0)
    (fun n => if n = 0 then -22 else AVERROR_EAGAIN) (fun n => ⟨n, 0, 0, 0⟩)

/-- The stream header write fails with code -22; ESC is polled in the first
pass and the codec has nothing to flush. -/
def headerFails : Env :=
  { session (fun _ => KEY_ESC) (fun _ => 0) (fun _ => AVERROR_EOF) (fun n => ⟨n, 0, 0, 0⟩)
      with writeHeaderRet := -22 }

/-- The output file cannot be opened: `avio_open2` fails with code -2. -/
def outputOpenFails : Env :=
  { twoFrames with avioOpenRet := -2 }

/-- A capture of `k` frames, then ESC: each frame submission is followed by
one packet and "no output available", the flush signal by end of stream. -/
def longCapture (k : Nat) : Env :=
  session (fun n => if n < k then -1 else KEY_ESC) (fun _ => 0)
    (fun n => if n < 2 * k then (if n % 2 = 0 then 0 else AVERROR_EAGAIN) else AVERROR_EOF)
    (fun n => ⟨n, n / 2, n / 2, 0⟩)

/-- Events of the part of `main` before the loop when every step succeeds
with return code 0. -/
def setupDone : List Event :=
  [.av_register_all, .VideoCapture_open true, .VideoCapture_set,
    .avformat_alloc_output_context2 0, .avio_open2 0, .avcodec_find_encoder true,
    .avcodec_alloc_context3 true, .avcodec_open2 0, .cout_summary,
    .avformat_new_stream true, .avcodec_parameters_from_context 0,
    .avformat_write_header 0, .sws_getCachedContext true, .av_frame_alloc true,
    .av_mallocz true, .av_image_fill_arrays, .av_freep]

/-! ## Rounding and rescaling -/

theorem round_bounds (n d : Int) (hd : 0 < d) :
    2 * n - d ≤ 2 * d * roundNearAwayFromZero n d ∧
      2 * d * roundNearAwayFromZero n d ≤ 2 * n + d := by
  unfold roundNearAwayFromZero
  have h2d : (0 : Int) < 2 * d := by linarith
  split_ifs with hn
  · have h1 := Int.emod_add_ediv (2 * n + d) (2 * d)
    have h2 := Int.emod_nonneg (2 * n + d) (ne_of_gt h2d)
    have h3 := Int.emod_lt_of_pos (2 * n + d) h2d
    constructor <;> linarith
  · have h1 := Int.emod_add_ediv (2 * (-n) + d) (2 * d)
    have h2 := Int.emod_nonneg (2 * (-n) + d) (ne_of_gt h2d)
    have h3 := Int.emod_lt_of_pos (2 * (-n) + d) h2d
    constructor <;> linarith

theorem round_mono (n m d : Int) (hd : 0 < d) (h : n ≤ m) :
    roundNearAwayFromZero n d ≤ roundNearAwayFromZero m d := by
  unfold roundNearAwayFromZero
  have h2d : (0 : Int) < 2 * d := by linarith
  split_ifs with hn hm hm
  · exact Int.ediv_le_ediv h2d (by linarith)
  · linarith
  · have h1 : 0 ≤ (2 * (-n) + d) / (2 * d) := Int.ediv_nonneg (by linarith) (le_of_lt h2d)
    have h2 : 0 ≤ (2 * m + d) / (2 * d) := Int.ediv_nonneg (by linarith) (le_of_lt h2d)
    linarith
  · have := Int.ediv_le_ediv h2d (show 2 * (-m) + d ≤ 2 * (-n) + d by linarith)
    linarith

theorem eq_zero_of_mul_bounds (c x : Int) (hc : 0 < c) (h1 : c * x < c) (h2 : -c < c * x) :
    x = 0 := by
  have hlt : x < 1 := lt_of_mul_lt_mul_left (by simpa using h1) (le_of_lt hc)
  have hgt : -1 < x := lt_of_mul_lt_mul_left (by simpa using h2) (le_of_lt hc)
  omega

theorem round_mul (k d : Int) (hd : 0 < d) : roundNearAwayFromZero (k * d) d = k := by
  have hb := round_bounds (k * d) d hd
  have h := eq_zero_of_mul_bounds (2 * d) (roundNearAwayFromZero (k * d) d - k)
    (by linarith) (by linarith) (by linarith)
  linarith

theorem rescale_mono (s t : Int) (a b : AVRational) (hn : 0 ≤ a.num * b.den)
    (hd : 0 < a.den * b.num) (h : s ≤ t) : av_rescale_q s a b ≤ av_rescale_q t a b :=
  round_mono _ _ _ hd (mul_le_mul_of_nonneg_right h hn)

/-! ## Basic facts about the loops -/

theorem drain_events_inDrain (env : Env) (a b : AVRational) (fuel : Nat) (ret : Int)
    (receives encoded : Nat) :
    ∀ e ∈ (drain env a b fuel ret receives encoded).events, inDrain e = true := by
  induction fuel generalizing ret receives encoded with
  | zero => simp [drain]
  | succ n ih =>
    simp only [drain]
    split_ifs <;> simp [inDrain]
    exact ih _ _ _

theorem inLoop_of_inDrain (e : Event) (h : inDrain e = true) : inLoop e = true := by
  cases e with
  | cerr line => cases line <;> first | rfl | cases h
  | _ => first | rfl | cases h

theorem pollFrame_events_inLoop (env : Env) (st : LoopState) :
    ∀ e ∈ (pollFrame env st).1, inLoop e = true := by
  unfold pollFrame
  split_ifs <;> simp [inLoop]

theorem sendAndDrain_events_inLoop (env : Env) (a b : AVRational) (fuel : Nat)
    (frame : Option Int) (st : LoopState) :
    ∀ e ∈ (sendAndDrain env a b fuel frame st).events, inLoop e = true := by
  have hd : ∀ ret r c, ∀ e ∈ (drain env a b fuel ret r c).events, inLoop e = true :=
    fun ret r c e he => inLoop_of_inDrain e (drain_events_inDrain env a b fuel ret r c e he)
  simp only [sendAndDrain]
  split_ifs <;> simp [inLoop, inDrain] <;> exact hd _ _ _

theorem loopBody_events_inLoop (env : Env) (a b : AVRational) (fuel : Nat)
    (st : LoopState) :
    ∀ e ∈ (loopBody env a b fuel st).events, inLoop e = true := by
  have hp := pollFrame_events_inLoop env st
  have hs := sendAndDrain_events_inLoop env a b fuel
  simp only [loopBody]
  split_ifs <;> simp only [List.forall_mem_append, List.forall_mem_singleton]
  · exact ⟨hp, rfl⟩
  · exact ⟨⟨hp, rfl⟩, hs _ _⟩
  · exact ⟨hp, hs _ _⟩

theorem encodeLoop_events_inLoop (env : Env) (a b : AVRational) (fuel : Nat)
    (st : LoopState) :
    ∀ e ∈ (encodeLoop env a b fuel st).events, inLoop e = true := by
  induction fuel generalizing st with
  | zero => simp [encodeLoop]
  | succ n ih =>
    have hb := loopBody_events_inLoop env a b n st
    simp only [encodeLoop]
    split
    · exact hb
    · split_ifs
      · simp only [List.forall_mem_append]
        exact ⟨hb, ih _⟩
      · exact hb

/-! ## Submissions and key polls of the loops -/

theorem filterMap_eq_nil_of_inDrain {α : Type} (f : Event → Option α)
    (hf : ∀ e, inDrain e = true → f e = none) (l : List Event)
    (hl : ∀ e ∈ l, inDrain e = true) : l.filterMap f = [] := by
  rw [List.filterMap_eq_nil_iff]
  exact fun e he => hf e (hl e he)

theorem asSubmission_inDrain (e : Event) (h : inDrain e = true) : asSubmission e = none := by
  cases e <;> first | rfl | cases h

theorem asKey_inDrain (e : Event) (h : inDrain e = true) : asKey e = none := by
  cases e <;> first | rfl | cases h

theorem submissions_drain (env : Env) (a b : AVRational) (fuel : Nat) (ret : Int)
    (r c : Nat) : submissions (drain env a b fuel ret r c).events = [] :=
  filterMap_eq_nil_of_inDrain _ asSubmission_inDrain _ (drain_events_inDrain _ _ _ _ _ _ _)

theorem keysPolled_drain (env : Env) (a b : AVRational) (fuel : Nat) (ret : Int)
    (r c : Nat) : keysPolled (drain env a b fuel ret r c).events = [] :=
  filterMap_eq_nil_of_inDrain _ asKey_inDrain _ (drain_events_inDrain _ _ _ _ _ _ _)

theorem sendAndDrain_submissions (env : Env) (a b : AVRational) (fuel : Nat)
    (frame : Option Int) (st : LoopState) :
    submissions (sendAndDrain env a b fuel frame st).events = [frame] := by
  have hd := submissions_drain env a b fuel
  simp only [submissions] at hd ⊢
  simp only [sendAndDrain]
  split_ifs <;> simp [List.filterMap_append, List.filterMap_cons, asSubmission, hd]

theorem sendAndDrain_keysPolled (env : Env) (a b : AVRational) (fuel : Nat)
    (frame : Option Int) (st : LoopState) :
    keysPolled (sendAndDrain env a b fuel frame st).events = [] := by
  have hd := keysPolled_drain env a b fuel
  simp only [keysPolled] at hd ⊢
  simp only [sendAndDrain]
  split_ifs <;> simp [List.filterMap_append, List.filterMap_cons, asKey, hd]

theorem sendAndDrain_state (env : Env) (a b : AVRational) (fuel : Nat)
    (frame : Option Int) (st : LoopState) :
    (sendAndDrain env a b fuel frame st).state.frame_pts = st.frame_pts ∧
      (sendAndDrain env a b fuel frame st).state.is_flushing = st.is_flushing := by
  simp only [sendAndDrain]
  split_ifs <;> simp

/-- One pass of the loop body entered with `is_flushing` unset: it polls one
key; on ESC it submits the flush signal and sets `is_flushing`; otherwise it
either stops at the overflow of `frame_pts` or submits one frame stamped
with `frame_pts` and advances the counter by one. -/
theorem loopBody_pass (env : Env) (a b : AVRational) (fuel : Nat) (st : LoopState)
    (h : st.is_flushing = false) :
    keysPolled (loopBody env a b fuel st).events = [env.waitKey st.waitKeys] ∧
      ((env.waitKey st.waitKeys = KEY_ESC ∧
          submissions (loopBody env a b fuel st).events = [none] ∧
          (loopBody env a b fuel st).state.frame_pts = st.frame_pts ∧
          (loopBody env a b fuel st).state.is_flushing = true) ∨
        (env.waitKey st.waitKeys ≠ KEY_ESC ∧
          (loopBody env a b fuel st).stop = some .undefinedBehaviour ∧
          submissions (loopBody env a b fuel st).events = [] ∧
          (loopBody env a b fuel st).state.frame_pts = st.frame_pts) ∨
        (env.waitKey st.waitKeys ≠ KEY_ESC ∧
          submissions (loopBody env a b fuel st).events = [some st.frame_pts] ∧
          (loopBody env a b fuel st).state.frame_pts = st.frame_pts + 1 ∧
          (loopBody env a b fuel st).state.is_flushing = false)) := by
  have hs := sendAndDrain_submissions env a b fuel
  have hk := sendAndDrain_keysPolled env a b fuel
  have hst := sendAndDrain_state env a b fuel
  simp only [submissions, keysPolled] at hs hk ⊢
  by_cases hkey : env.waitKey st.waitKeys = KEY_ESC
  · simp [loopBody, pollFrame, h, hkey, List.filterMap_append, List.filterMap_cons, asKey,
      asSubmission, hs, hk, hst]
  · by_cases hov : INT64_MAX ≤ st.frame_pts
    · simp [loopBody, pollFrame, h, hkey, hov, List.filterMap_append, List.filterMap_cons,
        asKey, asSubmission]
    · simp [loopBody, pollFrame, h, hkey, hov, List.filterMap_append, List.filterMap_cons,
        asKey, asSubmission, hs, hk, hst]

theorem submissions_append (l₁ l₂ : List Event) :
    submissions (l₁ ++ l₂) = submissions l₁ ++ submissions l₂ :=
  List.filterMap_append _ _ _

theorem keysPolled_append (l₁ l₂ : List Event) :
    keysPolled (l₁ ++ l₂) = keysPolled l₁ ++ keysPolled l₂ :=
  List.filterMap_append _ _ _

theorem range_map_shift (p : Int) (k : Nat) :
    (List.range (k + 1)).map (fun (i : Nat) => some (p + (i : Int))) =
      some p :: (List.range k).map (fun (i : Nat) => some (p + 1 + (i : Int))) := by
  rw [List.range_succ_eq_map]
  simp only [List.map_cons, List.map_map, Function.comp_def, Nat.cast_zero, add_zero,
    List.cons.injEq, true_and]
  apply List.map_congr_left
  intro i _
  simp only [Nat.succ_eq_add_one, Nat.cast_add, Nat.cast_one, Option.some.injEq]
  ring

/-- The submissions of the outer loop, entered with `is_flushing` unset and
followed for any fuel: some number `k` of frames stamped `frame_pts`,
`frame_pts + 1`, ..., then the flush signal if and only if ESC was polled;
the counter ends `k` higher than it started. -/
theorem encodeLoop_submissions (env : Env) (a b : AVRational) (fuel : Nat) (st : LoopState)
    (h : st.is_flushing = false) :
    ∃ k : Nat,
      submissions (encodeLoop env a b fuel st).events =
          (List.range k).map (fun (i : Nat) => some (st.frame_pts + (i : Int))) ++
            (if KEY_ESC ∈ keysPolled (encodeLoop env a b fuel st).events then [none] else []) ∧
        (encodeLoop env a b fuel st).state.frame_pts = st.frame_pts + (k : Int) := by
  induction fuel generalizing st with
  | zero => exact ⟨0, by simp [encodeLoop, submissions, keysPolled]⟩
  | succ n ih =>
    obtain ⟨hk, hc⟩ := loopBody_pass env a b n st h
    simp only [encodeLoop]
    generalize loopBody env a b n st = B at hk hc ⊢
    rcases hc with ⟨hesc, hsub, hpts, hfl⟩ | ⟨hne, hstop, hsub, hpts⟩ | ⟨hne, hsub, hpts, hfl⟩
    · refine ⟨0, ?_⟩
      cases hs : B.stop <;> simp [hfl, hk, hsub, hesc, hpts]
    · refine ⟨0, ?_⟩
      simp [hstop, hk, hsub, hne, hpts, Ne.symm hne]
    · cases hs : B.stop with
      | some ending =>
        refine ⟨1, ?_⟩
        simp [hk, hsub, hne, hpts, Ne.symm hne, List.range_succ]
      | none =>
        obtain ⟨k, hk1, hk2⟩ := ih B.state hfl
        refine ⟨k + 1, ?_⟩
        simp only [hfl, Bool.not_false, if_true, submissions_append, keysPolled_append, hk,
          hsub, hk1, hk2, hpts, List.mem_append, List.mem_singleton, Ne.symm hne, false_or]
        constructor
        · rw [range_map_shift]
          simp
        · push_cast
          ring

/-! ## Packets received and written by the loops -/

theorem PacketsForwarded.append {a b : AVRational} {e₁ e₂ : List Event} {c c' c'' : Nat}
    (h₁ : PacketsForwarded a b e₁ c c') (h₂ : PacketsForwarded a b e₂ c' c'') :
    PacketsForwarded a b (e₁ ++ e₂) c c'' := by
  obtain ⟨hw1, hc1⟩ := h₁
  obtain ⟨hw2, hc2⟩ := h₂
  simp only [writtenPackets, receivedPackets] at hw1 hw2 hc1 hc2
  refine ⟨by simp [writtenPackets, receivedPackets, List.filterMap_append, hw1, hw2], ?_⟩
  intro hc
  obtain ⟨hlt1, he1⟩ := hc1 hc
  obtain ⟨hlt2, he2⟩ := hc2 hlt1
  refine ⟨hlt2, ?_⟩
  simp only [writtenPackets, List.filterMap_append, List.length_append]
  rw [he2, he1, Nat.mod_add_mod, Nat.add_assoc]

theorem PacketsForwarded.of_silent {a b : AVRational} {events : List Event} (c : Nat)
    (hw : writtenPackets events = []) (hr : receivedPackets events = []) :
    PacketsForwarded a b events c c := by
  refine ⟨by rw [hw, hr]; rfl, fun hc => ⟨hc, ?_⟩⟩
  rw [hw]
  exact (Nat.mod_eq_of_lt hc).symm

theorem drain_packetsForwarded (env : Env) (a b : AVRational) (fuel : Nat) (ret : Int)
    (r c : Nat) :
    PacketsForwarded a b (drain env a b fuel ret r c).events c
      (drain env a b fuel ret r c).encoded_frames := by
  induction fuel generalizing ret r c with
  | zero => exact PacketsForwarded.of_silent c rfl rfl
  | succ n ih =>
    simp only [drain]
    split_ifs with h0 h1 h2
    · exact PacketsForwarded.of_silent c rfl
        (by rcases h1 with h | h <;> simp [receivedPackets, asReceived, h, AVERROR_EAGAIN,
          AVERROR_EOF])
    · exact PacketsForwarded.of_silent c rfl
        (by simp [receivedPackets, asReceived, h2])
    · have hstep : PacketsForwarded a b
          [.avcodec_receive_packet (env.receiveRet r) (env.receivePacket r),
            .av_write_frame (av_packet_rescale_ts
              { env.receivePacket r with stream_index := 0 } a b),
            .cout_progress c, .av_packet_unref] c ((c + 1) % UINT_SIZE) := by
        refine ⟨by simp [writtenPackets, receivedPackets, asWritten, asReceived,
          not_lt.mp h2, forwarded], fun _ => ⟨Nat.mod_lt _ (by decide), ?_⟩⟩
        simp [writtenPackets, asWritten]
      exact hstep.append (ih _ _ _)
    · exact PacketsForwarded.of_silent c rfl rfl

theorem sendAndDrain_packetsForwarded (env : Env) (a b : AVRational) (fuel : Nat)
    (frame : Option Int) (st : LoopState) :
    PacketsForwarded a b (sendAndDrain env a b fuel frame st).events st.encoded_frames
      (sendAndDrain env a b fuel frame st).state.encoded_frames := by
  have hd := drain_packetsForwarded env a b fuel (env.sendRet st.sends) st.receives
    st.encoded_frames
  have hsent : PacketsForwarded a b
      [.av_init_packet, .avcodec_send_frame frame (env.sendRet st.sends)]
      st.encoded_frames st.encoded_frames := PacketsForwarded.of_silent _ rfl rfl
  simp only [sendAndDrain]
  split_ifs
  · exact PacketsForwarded.of_silent _ rfl rfl
  · exact hsent.append hd
  · exact hsent.append hd

theorem pollFrame_silent (env : Env) (st : LoopState) :
    writtenPackets (pollFrame env st).1 = [] ∧ receivedPackets (pollFrame env st).1 = [] ∧
      (pollFrame env st).2.encoded_frames = st.encoded_frames := by
  unfold pollFrame
  split_ifs <;> exact ⟨rfl, rfl, rfl⟩

theorem loopBody_packetsForwarded (env : Env) (a b : AVRational) (fuel : Nat)
    (st : LoopState) :
    PacketsForwarded a b (loopBody env a b fuel st).events st.encoded_frames
      (loopBody env a b fuel st).state.encoded_frames := by
  obtain ⟨hw, hr, he⟩ := pollFrame_silent env st
  have hp : PacketsForwarded a b (pollFrame env st).1 st.encoded_frames
      (pollFrame env st).2.encoded_frames := by
    rw [he]
    exact PacketsForwarded.of_silent _ hw hr
  have hs : PacketsForwarded a b [Event.sws_scale] (pollFrame env st).2.encoded_frames
      (pollFrame env st).2.encoded_frames := PacketsForwarded.of_silent _ rfl rfl
  simp only [loopBody]
  split_ifs
  · exact hp.append hs
  · exact (hp.append hs).append (sendAndDrain_packetsForwarded env a b fuel _ _)
  · exact hp.append (sendAndDrain_packetsForwarded env a b fuel _ _)

theorem encodeLoop_packetsForwarded (env : Env) (a b : AVRational) (fuel : Nat)
    (st : LoopState) :
    PacketsForwarded a b (encodeLoop env a b fuel st).events st.encoded_frames
      (encodeLoop env a b fuel st).state.encoded_frames := by
  induction fuel generalizing st with
  | zero => exact PacketsForwarded.of_silent _ rfl rfl
  | succ n ih =>
    have hb := loopBody_packetsForwarded env a b n st
    simp only [encodeLoop]
    split
    · exact hb
    · split_ifs
      · exact hb.append (ih _)
      · exact hb

/-! ## Order of the codec calls of the loops -/

theorem codecCalls_append (l₁ l₂ : List Event) :
    codecCalls (l₁ ++ l₂) = codecCalls l₁ ++ codecCalls l₂ :=
  List.filterMap_append _ _ _

/-- The codec calls of the inner loop are receive calls, each but the first
directly after one that returned a packet; when the loop was entered (`ret`
not negative) and ended, the last one returned a negative code. -/
theorem drain_calls (env : Env) (a b : AVRational) (fuel : Nat) (ret : Int) (r c : Nat) :
    List.Chain' receivesUntilNegative (codecCalls (drain env a b fuel ret r c).events) ∧
      (∀ x ∈ codecCalls (drain env a b fuel ret r c).events, ∃ q, x = .receive q) ∧
      ((drain env a b fuel ret r c).finished = true → 0 ≤ ret →
        ∃ q, q < 0 ∧
          (codecCalls (drain env a b fuel ret r c).events).getLast? = some (.receive q)) := by
  induction fuel generalizing ret r c with
  | zero => simp [drain, codecCalls]
  | succ n ih =>
    simp only [drain]
    split_ifs with h0 h1 h2
    · refine ⟨by simp [codecCalls, asCodecCall], by simp [codecCalls, asCodecCall],
        fun _ _ => ⟨env.receiveRet r, ?_, rfl⟩⟩
      rcases h1 with h | h <;> rw [h] <;> decide
    · exact ⟨by simp [codecCalls, asCodecCall], by simp [codecCalls, asCodecCall],
        fun _ _ => ⟨env.receiveRet r, h2, rfl⟩⟩
    · obtain ⟨ih0, ih1, ih2⟩ := ih (env.receiveRet r) (r + 1) ((c + 1) % UINT_SIZE)
      have hcalls : codecCalls
          ([.avcodec_receive_packet (env.receiveRet r) (env.receivePacket r),
            .av_write_frame (av_packet_rescale_ts
              { env.receivePacket r with stream_index := 0 } a b),
            .cout_progress c, .av_packet_unref] ++
            (drain env a b n (env.receiveRet r) (r + 1) ((c + 1) % UINT_SIZE)).events) =
          .receive (env.receiveRet r) ::
            codecCalls (drain env a b n (env.receiveRet r) (r + 1)
              ((c + 1) % UINT_SIZE)).events := by
        simp [codecCalls, asCodecCall, List.filterMap_append, List.filterMap_cons]
      rw [hcalls]
      refine ⟨?_, ?_, ?_⟩
      · rw [List.chain'_cons']
        refine ⟨?_, ih0⟩
        intro y hy
        obtain ⟨q, rfl⟩ := ih1 y (List.mem_of_mem_head? hy)
        exact not_lt.mp h2
      · intro x hx
        rcases List.mem_cons.mp hx with hx | hx
        · exact ⟨_, hx⟩
        · exact ih1 x hx
      · intro hfin _
        obtain ⟨q, hq, hlast⟩ := ih2 hfin (not_lt.mp h2)
        refine ⟨q, hq, ?_⟩
        show ([CodecCall.receive (env.receiveRet r)] ++
          codecCalls (drain env a b n (env.receiveRet r) (r + 1)
            ((c + 1) % UINT_SIZE)).events).getLast? = some (.receive q)
        rw [List.getLast?_append, hlast]
        rfl
    · exact ⟨by simp [codecCalls], by simp [codecCalls], fun _ hret => absurd hret h0⟩

/-- The codec calls of lines 160-190: a submission, then, if the codec
accepted it, receive calls; when the pass reaches the loop condition, the
last call is a receive call that returned a negative code; when the pass
leaves the loop by `break`, the last call is the refused submission. -/
theorem sendAndDrain_calls (env : Env) (a b : AVRational) (fuel : Nat)
    (frame : Option Int) (st : LoopState) :
    List.Chain' receivesUntilNegative
        (codecCalls (sendAndDrain env a b fuel frame st).events) ∧
      (∀ y ∈ (codecCalls (sendAndDrain env a b fuel frame st).events).head?,
        ∃ f q, y = .send f q) ∧
      ((sendAndDrain env a b fuel frame st).stop = none →
        ∃ q, q < 0 ∧ (codecCalls (sendAndDrain env a b fuel frame st).events).getLast? =
          some (.receive q)) ∧
      ((sendAndDrain env a b fuel frame st).stop = some .left →
        ∀ x ∈ (codecCalls (sendAndDrain env a b fuel frame st).events).getLast?,
          returnedNegative x) := by
  obtain ⟨hd0, hd1, hd2⟩ := drain_calls env a b fuel (env.sendRet st.sends) st.receives
    st.encoded_frames
  have hchain : ¬ env.sendRet st.sends < 0 → List.Chain' receivesUntilNegative
      (.send frame (env.sendRet st.sends) ::
        codecCalls (drain env a b fuel (env.sendRet st.sends) st.receives
          st.encoded_frames).events) := by
    intro hret
    rw [List.chain'_cons']
    refine ⟨?_, hd0⟩
    intro y hy
    obtain ⟨q, rfl⟩ := hd1 y (List.mem_of_mem_head? hy)
    exact not_lt.mp hret
  simp only [sendAndDrain]
  split_ifs with h1 h2
  · refine ⟨?_, ?_, by simp, ?_⟩
    · simp [codecCalls, asCodecCall]
    · simp [codecCalls, asCodecCall]
    · intro _ x hx
      simp [codecCalls, asCodecCall] at hx
      subst hx
      exact h1
  · refine ⟨?_, ?_, by simp, by simp⟩
    · simpa [codecCalls, asCodecCall, List.filterMap_append] using hchain h1
    · simp [codecCalls, asCodecCall, List.filterMap_append]
  · refine ⟨?_, ?_, fun _ => ?_, by simp⟩
    · simpa [codecCalls, asCodecCall, List.filterMap_append] using hchain h1
    · simp [codecCalls, asCodecCall, List.filterMap_append]
    · obtain ⟨q, hq, hlast⟩ := hd2 (by simpa using h2) (not_lt.mp h1)
      refine ⟨q, hq, ?_⟩
      rw [codecCalls_append, List.getLast?_append, hlast]
      rfl

theorem codecCalls_pollFrame (env : Env) (st : LoopState) :
    codecCalls (pollFrame env st).1 = [] := by
  unfold pollFrame
  split_ifs <;> rfl

theorem loopBody_calls (env : Env) (a b : AVRational) (fuel : Nat) (st : LoopState) :
    List.Chain' receivesUntilNegative (codecCalls (loopBody env a b fuel st).events) ∧
      (∀ y ∈ (codecCalls (loopBody env a b fuel st).events).head?, ∃ f q, y = .send f q) ∧
      ((loopBody env a b fuel st).stop = none →
        ∃ q, q < 0 ∧ (codecCalls (loopBody env a b fuel st).events).getLast? =
          some (.receive q)) ∧
      ((loopBody env a b fuel st).stop = some .left →
        ∀ x ∈ (codecCalls (loopBody env a b fuel st).events).getLast?,
          returnedNegative x) := by
  have hp := codecCalls_pollFrame env st
  have hs : codecCalls [Event.sws_scale] = [] := rfl
  simp only [loopBody]
  split_ifs
  · simp [codecCalls_append, hp, hs]
  · simpa [codecCalls_append, hp, hs] using sendAndDrain_calls env a b fuel _ _
  · simpa [codecCalls_append, hp, hs] using sendAndDrain_calls env a b fuel _ _

/-- The codec calls of the outer loop: submissions and receive calls follow
one another as `receivesUntilNegative` says, and when the loop was left the
last call returned a negative code. -/
theorem encodeLoop_calls (env : Env) (a b : AVRational) (fuel : Nat) (st : LoopState) :
    List.Chain' receivesUntilNegative (codecCalls (encodeLoop env a b fuel st).events) ∧
      (∀ y ∈ (codecCalls (encodeLoop env a b fuel st).events).head?,
        ∃ f q, y = .send f q) ∧
      ((encodeLoop env a b fuel st).ending = .left →
        ∀ x ∈ (codecCalls (encodeLoop env a b fuel st).events).getLast?,
          returnedNegative x) := by
  induction fuel generalizing st with
  | zero => simp [encodeLoop, codecCalls]
  | succ n ih =>
    obtain ⟨hb1, hb2, hb3, hb4⟩ := loopBody_calls env a b n st
    simp only [encodeLoop]
    split
    · rename_i ending hstop
      refine ⟨hb1, hb2, ?_⟩
      intro hend
      simp only at hend
      subst hend
      exact hb4 hstop
    · rename_i hstop
      obtain ⟨q, hq, hlast⟩ := hb3 hstop
      split_ifs
      · obtain ⟨ih1, ih2, ih3⟩ := ih (loopBody env a b n st).state
        rw [codecCalls_append]
        refine ⟨?_, ?_, ?_⟩
        · rw [List.chain'_append]
          refine ⟨hb1, ih1, ?_⟩
          intro x hx y hy
          rw [hlast] at hx
          obtain ⟨f, q', rfl⟩ := ih2 y hy
          cases hx
          exact hq
        · intro y hy
          rw [List.head?_append] at hy
          cases hh : (codecCalls (loopBody env a b n st).events).head? with
          | none =>
            rw [hh] at hy
            exact ih2 y hy
          | some z =>
            rw [hh] at hy
            cases hy
            exact hb2 _ hh
        · intro hend x hx
          rw [List.getLast?_append, hlast] at hx
          cases hr : (codecCalls (encodeLoop env a b n
              (loopBody env a b n st).state).events).getLast? with
          | none =>
            rw [hr] at hx
            cases hx
            exact hq
          | some z =>
            rw [hr] at hx
            cases hx
            exact ih3 hend _ hr
      · refine ⟨hb1, hb2, ?_⟩
        intro _ x hx
        rw [hlast] at hx
        cases hx
        exact hq

/-- Where no receive call failed, a sequence of codec calls ordered as the
loops order them is one in which every drain ran until the codec reported
that it has no more output. -/
theorem chain_drainedBefore (l : List CodecCall)
    (h : List.Chain' receivesUntilNegative l) (hok : ∀ c ∈ l, receiveDidNotFail c) :
    List.Chain' drainedBefore l := by
  induction l with
  | nil => exact List.chain'_nil
  | cons x l ih =>
    rw [List.chain'_cons'] at h ⊢
    refine ⟨?_, ih h.2 (fun c hc => hok c (List.mem_cons_of_mem _ hc))⟩
    intro y hy
    have hxy := h.1 y hy
    have hx := hok x (List.mem_cons_self _ _)
    cases x with
    | send f q => cases y <;> exact hxy
    | receive q =>
      cases y with
      | receive q' => exact hxy
      | send f q' =>
        rcases hx with hx | hx
        · exact absurd hxy (not_lt.mpr hx)
        · exact hx

theorem drainEnded_of_returnedNegative (c : CodecCall) (h : returnedNegative c)
    (hok : receiveDidNotFail c) : drainEnded c := by
  cases c with
  | send f q => exact h
  | receive q =>
    rcases hok with hok | hok
    · exact absurd h (not_lt.mpr hok)
    · exact hok

/-! ## Facts about `main` -/

theorem ite_both {α : Type} (P : α → Prop) (c : Prop) [Decidable c] (x y : α)
    (hx : P x) (hy : P y) : P (if c then x else y) := by
  split <;> assumption

theorem setup_events_inSetup (env : Env) : ∀ e ∈ (setup env).events, inSetup e = true := by
  simp only [setup]
  repeat' refine ite_both (fun r => ∀ e ∈ SetupResult.events r, inSetup e = true) _ _ _ ?_ ?_
  all_goals simp [SetupResult.events, inSetup]



theorem main_trace_of_ready (env : Env) (fuel : Nat) (ev : List Event)
    (h : setup env = .ready ev) :
    (main env fuel).trace = ev ++ (mainLoop env fuel).events ++ tailEvents (mainLoop env fuel) := by
  simp only [main, h, tailEvents]
  cases (mainLoop env fuel).ending <;> simp

theorem setup_ready_events (env : Env) (ev : List Event) (h : setup env = .ready ev) :
    ev = [.av_register_all, .VideoCapture_open env.cameraOpened, .VideoCapture_set,
      .avformat_alloc_output_context2 env.allocOutputRet, .avio_open2 env.avioOpenRet,
      .avcodec_find_encoder env.encoderFound,
      .avcodec_alloc_context3 env.codecContextAllocated, .avcodec_open2 env.codecOpenRet,
      .cout_summary, .avformat_new_stream env.streamCreated,
      .avcodec_parameters_from_context env.parametersRet,
      .avformat_write_header env.writeHeaderRet, .sws_getCachedContext env.scalerCreated,
      .av_frame_alloc env.frameAllocated, .av_mallocz env.bufferAllocated,
      .av_image_fill_arrays, .av_freep] := by
  simp only [setup] at h
  by_cases h1 : env.argc < 2
  · rw [if_pos h1] at h; cases h
  rw [if_neg h1] at h
  by_cases h2 : (!env.cameraOpened) = true
  · rw [if_pos h2] at h; cases h
  rw [if_neg h2] at h
  by_cases h3 : env.allocOutputRet < 0
  · rw [if_pos h3] at h; cases h
  rw [if_neg h3] at h
  by_cases h4 : env.avioOpenRet < 0
  · rw [if_pos h4] at h; cases h
  rw [if_neg h4] at h
  by_cases h5 : (!env.codecContextAllocated) = true
  · rw [if_pos h5] at h; cases h
  rw [if_neg h5] at h
  by_cases h6 : env.codecOpenRet < 0
  · rw [if_pos h6] at h; cases h
  rw [if_neg h6] at h
  by_cases h7 : (!env.encoderFound) = true
  · rw [if_pos h7] at h; cases h
  rw [if_neg h7] at h
  by_cases h8 : (!env.streamCreated) = true
  · rw [if_pos h8] at h; cases h
  rw [if_neg h8] at h
  by_cases h9 : (!env.scalerCreated) = true
  · rw [if_pos h9] at h; cases h
  rw [if_neg h9] at h
  by_cases h10 : (!env.frameAllocated) = true
  · rw [if_pos h10] at h; cases h
  rw [if_neg h10] at h
  by_cases h11 : (!env.bufferAllocated) = true
  · rw [if_pos h11] at h; cases h
  rw [if_neg h11] at h
  injection h with h
  rw [← h]
  rfl

theorem filterMap_eq_nil_of_inLoop {α : Type} (f : Event → Option α)
    (hf : ∀ e, inLoop e = true → f e = none) (l : List Event)
    (hl : ∀ e ∈ l, inLoop e = true) : l.filterMap f = [] := by
  rw [List.filterMap_eq_nil_iff]
  exact fun e he => hf e (hl e he)

theorem asHeaderWrite_inLoop (e : Event) (h : inLoop e = true) : asHeaderWrite e = none := by
  cases e <;> first | rfl | cases h

theorem headerWrites_mainLoop (env : Env) (fuel : Nat) :
    headerWrites (mainLoop env fuel).events = [] :=
  filterMap_eq_nil_of_inLoop _ asHeaderWrite_inLoop _ (encodeLoop_events_inLoop _ _ _ _ _)

theorem headerWrites_tailEvents (looped : LoopResult) :
    headerWrites (tailEvents looped) = [] := by
  unfold tailEvents
  split <;> rfl

/-- An observation that sees nothing before the loop and nothing after it
sees in a run of `main` that reaches the loop what it sees in the loop. -/
theorem main_filterMap_ready {α : Type} (f : Event → Option α)
    (hsetup : ∀ e, inSetup e = true → f e = none)
    (hfinish : ∀ n, (finish n).filterMap f = []) (env : Env) (fuel : Nat)
    (ev : List Event) (hset : setup env = .ready ev) :
    (main env fuel).trace.filterMap f = (mainLoop env fuel).events.filterMap f := by
  have hs := setup_events_inSetup env
  rw [hset] at hs
  have hev : ev.filterMap f = [] := by
    rw [List.filterMap_eq_nil_iff]
    exact fun e he => hsetup e (hs e he)
  have htail : (tailEvents (mainLoop env fuel)).filterMap f = [] := by
    unfold tailEvents
    split
    · exact hfinish _
    · rfl
  rw [main_trace_of_ready env fuel ev hset]
  simp [List.filterMap_append, hev, htail]

/-- An observation that sees nothing before the loop sees nothing in a run
of `main` that ends before the loop. -/
theorem main_filterMap_stop {α : Type} (f : Event → Option α)
    (hsetup : ∀ e, inSetup e = true → f e = none) (env : Env) (fuel : Nat)
    (ev : List Event) (out : Outcome) (hset : setup env = .stop ev out) :
    (main env fuel).trace.filterMap f = [] := by
  have hs := setup_events_inSetup env
  rw [hset] at hs
  simp only [main, hset]
  rw [List.filterMap_eq_nil_iff]
  exact fun e he => hsetup e (hs e he)

theorem asSubmission_inSetup (e : Event) (h : inSetup e = true) : asSubmission e = none := by
  cases e <;> first | rfl | cases h

theorem asKey_inSetup (e : Event) (h : inSetup e = true) : asKey e = none := by
  cases e <;> first | rfl | cases h

/-- The submissions of a run of `main`: frames stamped 0, 1, ..., `k - 1`
for some `k`, then the flush signal if and only if ESC was polled. -/
theorem main_submissions (env : Env) (fuel : Nat) :
    ∃ k : Nat,
      submissions (main env fuel).trace =
        (List.range k).map (fun (i : Nat) => some (i : Int)) ++
          (if KEY_ESC ∈ keysPolled (main env fuel).trace then [none] else []) := by
  cases hset : setup env with
  | stop ev out =>
    have hs := main_filterMap_stop asSubmission asSubmission_inSetup env fuel ev out hset
    have hk := main_filterMap_stop asKey asKey_inSetup env fuel ev out hset
    exact ⟨0, by simp [submissions, keysPolled, hs, hk]⟩
  | ready ev =>
    have hs := main_filterMap_ready asSubmission asSubmission_inSetup (fun _ => rfl)
      env fuel ev hset
    have hk := main_filterMap_ready asKey asKey_inSetup (fun _ => rfl) env fuel ev hset
    obtain ⟨k, hk1, _⟩ := encodeLoop_submissions env (env.codecTimeBase (av_inv_q dst_fps))
      (env.streamTimeBase (av_inv_q dst_fps)) fuel loopStart rfl
    refine ⟨k, ?_⟩
    simp only [submissions, keysPolled, hs, hk]
    simpa [mainLoop, loopStart, submissions, keysPolled] using hk1

theorem setup_stop_outcome (env : Env) :
    ∀ ev out, setup env = .stop ev out →
      out = .exit 1 ∨ out = .exit 2 ∨ out = .undefinedBehaviour := by
  simp only [setup]
  repeat' refine ite_both (fun r => ∀ ev out, r = SetupResult.stop ev out →
    out = .exit 1 ∨ out = .exit 2 ∨ out = .undefinedBehaviour) _ _ _ ?_ ?_
  all_goals
    intro ev out h
    cases h
    all_goals simp

/-- A run of `main` returns 0 exactly when it reached the loop and the loop
was left. -/
theorem main_exit_zero (env : Env) (fuel : Nat) (h : (main env fuel).outcome = .exit 0) :
    ∃ ev, setup env = .ready ev ∧ (mainLoop env fuel).ending = .left := by
  cases hset : setup env with
  | stop ev out =>
    simp only [main, hset] at h
    rcases setup_stop_outcome env ev out hset with h1 | h1 | h1 <;> rw [h1] at h <;> cases h
  | ready ev =>
    refine ⟨ev, rfl, ?_⟩
    simp only [main, hset] at h
    cases hend : (mainLoop env fuel).ending <;> simp [hend] at h ⊢

/-- A run of `main` that returns a code other than 0 ended before the loop. -/
theorem main_exit_nonzero (env : Env) (fuel : Nat) (code : Int) (hcode : code ≠ 0)
    (h : (main env fuel).outcome = .exit code) : ∃ ev out, setup env = .stop ev out := by
  cases hset : setup env with
  | stop ev out => exact ⟨ev, out, rfl⟩
  | ready ev =>
    simp only [main, hset] at h
    cases hend : (mainLoop env fuel).ending <;> simp [hend] at h
    exact absurd h.symm hcode

theorem asWritten_inSetup (e : Event) (h : inSetup e = true) : asWritten e = none := by
  cases e <;> first | rfl | cases h

theorem asReceived_inSetup (e : Event) (h : inSetup e = true) : asReceived e = none := by
  cases e <;> first | rfl | cases h

theorem asCodecCall_inSetup (e : Event) (h : inSetup e = true) : asCodecCall e = none := by
  cases e <;> first | rfl | cases h

theorem asFinalCount_inSetup (e : Event) (h : inSetup e = true) : asFinalCount e = none := by
  cases e <;> first | rfl | cases h

theorem asFinalCount_inLoop (e : Event) (h : inLoop e = true) : asFinalCount e = none := by
  cases e <;> first | rfl | cases h

theorem releases_inSetup (e : Event) (h : inSetup e = true) : releases e = none := by
  cases e <;> first | rfl | cases h

theorem releases_inLoop (e : Event) (h : inLoop e = true) : releases e = none := by
  cases e <;> first | rfl | cases h

/-- The packets written in a run of `main` are the packets received, each
prepared by lines 182-184, in the same order. -/
theorem main_written (env : Env) (fuel : Nat) :
    writtenPackets (main env fuel).trace =
      (receivedPackets (main env fuel).trace).map
        (forwarded (env.codecTimeBase (av_inv_q dst_fps))
          (env.streamTimeBase (av_inv_q dst_fps))) := by
  cases hset : setup env with
  | stop ev out =>
    have hw := main_filterMap_stop asWritten asWritten_inSetup env fuel ev out hset
    have hr := main_filterMap_stop asReceived asReceived_inSetup env fuel ev out hset
    simp [writtenPackets, receivedPackets, hw, hr]
  | ready ev =>
    have hw := main_filterMap_ready asWritten asWritten_inSetup (fun _ => rfl)
      env fuel ev hset
    have hr := main_filterMap_ready asReceived asReceived_inSetup (fun _ => rfl)
      env fuel ev hset
    have h := (encodeLoop_packetsForwarded env (env.codecTimeBase (av_inv_q dst_fps))
      (env.streamTimeBase (av_inv_q dst_fps)) fuel loopStart).1
    simp only [writtenPackets, receivedPackets] at h ⊢
    rw [hw, hr]
    exact h

/-- When `main` returns 0 it has reported one final count: the number of
packets written, modulo `UINT_SIZE`. -/
theorem main_finalCounts (env : Env) (fuel : Nat) (h : (main env fuel).outcome = .exit 0) :
    finalCounts (main env fuel).trace =
      [(writtenPackets (main env fuel).trace).length % UINT_SIZE] := by
  obtain ⟨ev, hset, hend⟩ := main_exit_zero env fuel h
  have hw := main_filterMap_ready asWritten asWritten_inSetup (fun _ => rfl) env fuel ev hset
  have hs := setup_events_inSetup env
  rw [hset] at hs
  have hev : ev.filterMap asFinalCount = [] :=
    List.filterMap_eq_nil_iff.mpr (fun e he => asFinalCount_inSetup e (hs e he))
  have hloop : (mainLoop env fuel).events.filterMap asFinalCount = [] :=
    filterMap_eq_nil_of_inLoop _ asFinalCount_inLoop _ (encodeLoop_events_inLoop _ _ _ _ _)
  have hcount := (encodeLoop_packetsForwarded env (env.codecTimeBase (av_inv_q dst_fps))
    (env.streamTimeBase (av_inv_q dst_fps)) fuel loopStart).2 (by decide)
  simp only [loopStart, zero_add] at hcount
  simp only [finalCounts, writtenPackets] at hcount ⊢
  rw [hw, main_trace_of_ready env fuel ev hset]
  simp only [List.filterMap_append, hev, hloop, tailEvents, hend, List.nil_append]
  simp only [mainLoop, loopStart]
  rw [hcount.2]
  rfl

/-- The codec calls of a run of `main` follow one another as
`receivesUntilNegative` says, and when `main` returns 0 the last codec call
returned a negative code. -/
theorem main_calls (env : Env) (fuel : Nat) :
    List.Chain' receivesUntilNegative (codecCalls (main env fuel).trace) ∧
      ((main env fuel).outcome = .exit 0 →
        ∀ x ∈ (codecCalls (main env fuel).trace).getLast?, returnedNegative x) := by
  cases hset : setup env with
  | stop ev out =>
    have h := main_filterMap_stop asCodecCall asCodecCall_inSetup env fuel ev out hset
    simp only [codecCalls]
    rw [h]
    exact ⟨List.chain'_nil, fun _ x hx => by simp at hx⟩
  | ready ev =>
    have h := main_filterMap_ready asCodecCall asCodecCall_inSetup (fun _ => rfl)
      env fuel ev hset
    obtain ⟨h1, _, h3⟩ := encodeLoop_calls env (env.codecTimeBase (av_inv_q dst_fps))
      (env.streamTimeBase (av_inv_q dst_fps)) fuel loopStart
    simp only [codecCalls] at h1 h3 ⊢
    rw [h]
    refine ⟨h1, fun hexit => ?_⟩
    obtain ⟨_, _, hend⟩ := main_exit_zero env fuel hexit
    exact h3 hend

/-- C7. With an output path given (`argc` at least 2) and a capture device
that does not open, `main` returns 2 for every fuel, having written exactly
one line to standard error and having made no call that allocates the output
context or opens the output file: the run is the library initialisation, the
attempt to open the device, and the error line. -/
theorem device_open_failure (env : Env) (fuel : Nat) (hargc : 2 ≤ env.argc)
    (hcam : env.cameraOpened = false) :
    main env fuel =
        ⟨[.av_register_all, .VideoCapture_open false, .cerr .failedToOpenVideoCapture],
          .exit 2⟩ ∧
      (errLines (main env fuel).trace).length = 1 ∧
      (∀ ret, Event.avformat_alloc_output_context2 ret ∉ (main env fuel).trace) ∧
      (∀ ret, Event.avio_open2 ret ∉ (main env fuel).trace) := by
  have hm : main env fuel =
      ⟨[.av_register_all, .VideoCapture_open false, .cerr .failedToOpenVideoCapture],
        .exit 2⟩ := by
    simp [main, setup, hcam, not_lt.mpr hargc]
  rw [hm]
  simp [errLines, asErrLine]

/-- C1. In every run of `main` that reaches the encoding loop (the part
before the loop neither returned nor failed), whatever the keys pressed and
the return codes of the codec, and however far the run is followed: the
trace holds exactly one stream header write, and every packet write has that
header write before it. -/
theorem header_once_before_packets (env : Env) (fuel : Nat) (ev : List Event)
    (h : setup env = .ready ev) :
    headerWrites (main env fuel).trace = [env.writeHeaderRet] ∧
      ∀ pre packet post, (main env fuel).trace = pre ++ .av_write_frame packet :: post →
        Event.avformat_write_header env.writeHeaderRet ∈ pre := by
  have hev := setup_ready_events env ev h
  have htr := main_trace_of_ready env fuel ev h
  constructor
  · rw [htr]
    simp only [headerWrites, List.filterMap_append]
    have h1 := headerWrites_mainLoop env fuel
    have h2 := headerWrites_tailEvents (mainLoop env fuel)
    simp only [headerWrites] at h1 h2
    rw [h1, h2, hev]
    rfl
  · intro pre packet post hsplit
    rw [htr, List.append_assoc] at hsplit
    have hin : Event.avformat_write_header env.writeHeaderRet ∈ ev := by
      rw [hev]; simp
    rcases List.append_eq_append_iff.mp hsplit with ⟨a, ha, _⟩ | ⟨c, hc, hc2⟩
    · rw [ha]
      exact List.mem_append_left _ hin
    · cases c with
      | nil =>
        rw [List.append_nil] at hc
        exact hc ▸ hin
      | cons x c =>
        have hx : x = .av_write_frame packet := by
          simp only [List.cons_append, List.cons.injEq] at hc2
          exact hc2.1.symm
        have hmem : Event.av_write_frame packet ∈ ev := by
          rw [hc, ← hx]; simp
        rw [hev] at hmem
        simp at hmem

theorem framePts_of_shape (k : Nat) (p : Int) (c : Prop) [Decidable c] :
    ((List.range k).map (fun (i : Nat) => some (p + (i : Int))) ++
        (if c then [none] else [])).filterMap id =
      (List.range k).map (fun (i : Nat) => p + (i : Int)) := by
  have h : ∀ l : List Nat, l.filterMap (fun (i : Nat) => some (p + (i : Int))) =
      l.map (fun (i : Nat) => p + (i : Int)) := by
    intro l
    induction l with
    | nil => rfl
    | cons x l ih => simp [List.filterMap_cons, ih]
  split_ifs <;> simp [List.filterMap_append, List.filterMap_map, Function.comp_def, h]

/-- C3. In every run of `main`, followed for any fuel, the timestamps of the
frames submitted to the codec are 0, 1, 2, ... in submission order: the
k-th frame submitted carries k - 1.  The counter `frame_pts` advances only
with a submitted frame: when the loop stops it equals the number of frames
submitted (the pass in which ESC is polled submits the null frame and leaves
the counter alone). -/
theorem frame_pts_sequential (env : Env) (fuel : Nat) :
    framePts (main env fuel).trace =
        (List.range (framePts (main env fuel).trace).length).map (fun (i : Nat) => (i : Int)) ∧
      (mainLoop env fuel).state.frame_pts =
        ((framePts (mainLoop env fuel).events).length : Int) := by
  constructor
  · obtain ⟨k, hk⟩ := main_submissions env fuel
    have h := framePts_of_shape k 0 (KEY_ESC ∈ keysPolled (main env fuel).trace)
    simp only [zero_add] at h
    have hf : framePts (main env fuel).trace =
        (List.range k).map (fun (i : Nat) => (i : Int)) := by
      unfold framePts
      rw [hk]
      exact h
    rw [hf]
    simp
  · obtain ⟨k, hk1, hk2⟩ := encodeLoop_submissions env (env.codecTimeBase (av_inv_q dst_fps))
      (env.streamTimeBase (av_inv_q dst_fps)) fuel loopStart rfl
    have h := framePts_of_shape k loopStart.frame_pts
      (KEY_ESC ∈ keysPolled (encodeLoop env (env.codecTimeBase (av_inv_q dst_fps))
        (env.streamTimeBase (av_inv_q dst_fps)) fuel loopStart).events)
    unfold framePts mainLoop
    rw [hk1, h, hk2]
    simp [loopStart]

theorem count_none_map_some (k : Nat) (g : Nat → Int) :
    ((List.range k).map (fun (i : Nat) => some (g i))).count none = 0 := by
  rw [List.count_eq_zero]
  simp

/-- C2, as amended. In every run of `main`, followed for any fuel: the flush
signal (a submission of the null frame) is submitted at most once; nothing
is submitted to the codec after it; and it is submitted exactly once if and
only if ESC was polled.  A run whose loop ends on a failed frame submission,
without ESC, therefore ends with no flush signal at all. -/
theorem flush_at_most_once_and_last (env : Env) (fuel : Nat) :
    flushCount (main env fuel).trace ≤ 1 ∧
      (∀ pre post, submissions (main env fuel).trace = pre ++ none :: post → post = []) ∧
      (flushCount (main env fuel).trace = 1 ↔ KEY_ESC ∈ keysPolled (main env fuel).trace) := by
  obtain ⟨k, hk⟩ := main_submissions env fuel
  have hc := count_none_map_some k (fun i => (i : Int))
  have hmem : (none : Option Int) ∉ (List.range k).map (fun (i : Nat) => some (i : Int)) := by
    simp
  unfold flushCount
  rw [hk]
  by_cases hesc : KEY_ESC ∈ keysPolled (main env fuel).trace
  · simp only [hesc, if_true, List.count_append, hc, zero_add, iff_true]
    refine ⟨by simp, ?_, by simp⟩
    intro pre post hsplit
    rcases List.append_eq_append_iff.mp hsplit with ⟨a, _, ha⟩ | ⟨c, hc1, hc2⟩
    · cases a with
      | nil => simpa using ha
      | cons x a => simp at ha
    · cases c with
      | nil => simpa using hc2
      | cons x c =>
        simp only [List.cons_append, List.cons.injEq] at hc2
        exact absurd (hc1 ▸ (by simp [← hc2.1] : (none : Option Int) ∈ pre ++ x :: c)) hmem
  · simp only [hesc, if_false, List.append_nil, hc, iff_false]
    refine ⟨by simp, ?_, by simp⟩
    intro pre post hsplit
    exact absurd (hsplit ▸ (by simp : (none : Option Int) ∈ pre ++ none :: post)) hmem

/-- Rescaling `t` from `A` to `B` and back, for positive time-bases: the
result differs from `t` by at most `1/2 + B / (2 A)`.  With `A = a.num / a.den`
and `B = b.num / b.den` the bound is stated without division. -/
theorem rescale_round_trip_bound (t : Int) (a b : AVRational) (han : 0 < a.num)
    (had : 0 < a.den) (hbn : 0 < b.num) (hbd : 0 < b.den) :
    2 * (b.den * a.num) * |av_rescale_q (av_rescale_q t a b) b a - t| ≤
      a.den * b.num + b.den * a.num := by
  have hd1 : 0 < a.den * b.num := mul_pos had hbn
  have hd2 : 0 < b.den * a.num := mul_pos hbd han
  have hb1 := round_bounds (t * (a.num * b.den)) (a.den * b.num) hd1
  have hb2 := round_bounds (av_rescale_q t a b * (b.num * a.den)) (b.den * a.num) hd2
  have hx : av_rescale_q (av_rescale_q t a b) b a =
      roundNearAwayFromZero (av_rescale_q t a b * (b.num * a.den)) (b.den * a.num) := rfl
  have hy : av_rescale_q t a b =
      roundNearAwayFromZero (t * (a.num * b.den)) (a.den * b.num) := rfl
  rw [← hx] at hb2
  rw [← hy] at hb1
  have hnn : (0 : Int) ≤ 2 * (b.den * a.num) := by linarith
  rw [← abs_of_nonneg hnn, ← abs_mul, abs_le]
  constructor <;> nlinarith

/-- Rescaling `t` from `A` to `B` and back returns `t` itself when `B` is
not larger than `A`. -/
theorem rescale_round_trip_exact (t : Int) (a b : AVRational) (han : 0 < a.num)
    (had : 0 < a.den) (hbn : 0 < b.num) (hbd : 0 < b.den)
    (hle : b.num * a.den ≤ a.num * b.den) :
    av_rescale_q (av_rescale_q t a b) b a = t := by
  have hd1 : 0 < a.den * b.num := mul_pos had hbn
  have hd2 : 0 < b.den * a.num := mul_pos hbd han
  rcases eq_or_lt_of_le hle with heq | hlt
  · unfold av_rescale_q
    have e1 : t * (a.num * b.den) = t * (a.den * b.num) := by rw [← heq]; ring
    rw [e1, round_mul _ _ hd1]
    have e2 : t * (b.num * a.den) = t * (b.den * a.num) := by rw [heq]; ring
    rw [e2, round_mul _ _ hd2]
  · have hb := rescale_round_trip_bound t a b han had hbn hbd
    rw [← abs_of_nonneg (show (0 : Int) ≤ 2 * (b.den * a.num) by linarith), ← abs_mul,
      abs_le] at hb
    have h := eq_zero_of_mul_bounds (2 * (b.den * a.num))
      (av_rescale_q (av_rescale_q t a b) b a - t) (by linarith) (by nlinarith)
      (by nlinarith)
    linarith

/-- C8, as amended. For every timestamp `t` and positive time-bases `A` and
`B` with `B` at most three times `A` (`B.num / B.den ≤ 3 * (A.num / A.den)`,
written without division), rescaling `t` from `A` to `B` and back from `B`
to `A`, each time rounding to nearest with ties away from zero, yields a
value that differs from `t` by at most 1; when `B` is not larger than `A`
the value is `t` itself. -/
theorem rescale_round_trip (t : Int) (a b : AVRational) (han : 0 < a.num)
    (had : 0 < a.den) (hbn : 0 < b.num) (hbd : 0 < b.den)
    (hle : b.num * a.den ≤ 3 * (a.num * b.den)) :
    |av_rescale_q (av_rescale_q t a b) b a - t| ≤ 1 ∧
      (b.num * a.den ≤ a.num * b.den → av_rescale_q (av_rescale_q t a b) b a = t) := by
  refine ⟨?_, rescale_round_trip_exact t a b han had hbn hbd⟩
  have hD : 0 < a.num * b.den := mul_pos han hbd
  have hd1 : 0 < a.den * b.num := mul_pos had hbn
  have hd2 : 0 < b.den * a.num := mul_pos hbd han
  rcases eq_or_lt_of_le hle with heq | hlt
  · -- `B = 3 A`: neither rounding can meet a tie
    have hb1 := round_bounds (t * (a.num * b.den)) (a.den * b.num) hd1
    have hb2 := round_bounds (av_rescale_q t a b * (b.num * a.den)) (b.den * a.num) hd2
    have hx : av_rescale_q (av_rescale_q t a b) b a =
        roundNearAwayFromZero (av_rescale_q t a b * (b.num * a.den)) (b.den * a.num) := rfl
    have hy : av_rescale_q t a b =
        roundNearAwayFromZero (t * (a.num * b.den)) (a.den * b.num) := rfl
    rw [← hx] at hb2
    rw [← hy] at hb1
    have e1 : a.den * b.num = 3 * (a.num * b.den) := by rw [← heq]; ring
    have e2 : b.den * a.num = a.num * b.den := by ring
    rw [e1] at hb1
    rw [heq, e2] at hb2
    generalize av_rescale_q (av_rescale_q t a b) b a = y at hb2 ⊢
    generalize av_rescale_q t a b = x at hb1 hb2
    generalize a.num * b.den = D at hD hb1 hb2
    have h1 : 2 * t - 3 ≤ 6 * x :=
      le_of_mul_le_mul_left (a := D) (by nlinarith [hb1.1]) hD
    have h2 : 6 * x ≤ 2 * t + 3 :=
      le_of_mul_le_mul_left (a := D) (by nlinarith [hb1.2]) hD
    have h3 : 6 * x - 1 ≤ 2 * y :=
      le_of_mul_le_mul_left (a := D) (by nlinarith [hb2.1]) hD
    have h4 : 2 * y ≤ 6 * x + 1 :=
      le_of_mul_le_mul_left (a := D) (by nlinarith [hb2.2]) hD
    rw [abs_le]
    constructor <;> omega
  · have hb := rescale_round_trip_bound t a b han had hbn hbd
    have hlt2 : 2 * (b.den * a.num) * |av_rescale_q (av_rescale_q t a b) b a - t| <
        2 * (b.den * a.num) * 2 := by nlinarith
    have h := lt_of_mul_lt_mul_left hlt2 (by linarith)
    omega

/-- C8, witness: from the codec time-base 1/24 to the time-base 1/12 (twice
as long) and back, timestamp 5 becomes 3 and then 6, one off; from 1/24 to
the finer time-base 1/12288 and back, timestamp 47 is recovered. -/
theorem rescale_round_trip_witness :
    ((⟨1, 12⟩ : AVRational).num * (av_inv_q dst_fps).den ≤
        3 * ((av_inv_q dst_fps).num * (⟨1, 12⟩ : AVRational).den) ∧
      av_rescale_q (av_rescale_q 5 (av_inv_q dst_fps) ⟨1, 12⟩) ⟨1, 12⟩ (av_inv_q dst_fps) = 6 ∧
      |av_rescale_q (av_rescale_q 5 (av_inv_q dst_fps) ⟨1, 12⟩) ⟨1, 12⟩ (av_inv_q dst_fps) - 5|
        ≤ 1) ∧
      ((⟨1, 12288⟩ : AVRational).num * (av_inv_q dst_fps).den ≤
        (av_inv_q dst_fps).num * (⟨1, 12288⟩ : AVRational).den ∧
      av_rescale_q (av_rescale_q 47 (av_inv_q dst_fps) ⟨1, 12288⟩) ⟨1, 12288⟩
        (av_inv_q dst_fps) = 47) :=
  ⟨⟨by decide, by decide,
      (rescale_round_trip 5 (av_inv_q dst_fps) ⟨1, 12⟩ (by decide) (by decide) (by decide)
        (by decide) (by decide)).1⟩,
    by decide,
    (rescale_round_trip 47 (av_inv_q dst_fps) ⟨1, 12288⟩ (by decide) (by decide) (by decide)
      (by decide) (by decide)).2 (by decide)⟩

/-- The factor three cannot be raised: with `B` equal to 3.01 times `A`
(`A = 1/301`, `B = 1/100`), timestamp 149 becomes 50 and comes back as 151. -/
theorem rescale_round_trip_beyond_three :
    av_rescale_q 149 ⟨1, 301⟩ ⟨1, 100⟩ = 50 ∧
      av_rescale_q (av_rescale_q 149 ⟨1, 301⟩ ⟨1, 100⟩) ⟨1, 100⟩ ⟨1, 301⟩ = 151 := by
  decide

/-- C8, counterexample to the claim as stated: from the time-base 1/24 to
the time-base 1/1 timestamp 5 is rescaled to 0, and 0 is rescaled back to 0,
which differs from 5 by more than 1. -/
theorem rescale_round_trip_counterexample :
    av_rescale_q 5 (av_inv_q dst_fps) ⟨1, 1⟩ = 0 ∧
      av_rescale_q (av_rescale_q 5 (av_inv_q dst_fps) ⟨1, 1⟩) ⟨1, 1⟩ (av_inv_q dst_fps) = 0 ∧
      ¬ |av_rescale_q (av_rescale_q 5 (av_inv_q dst_fps) ⟨1, 1⟩) ⟨1, 1⟩ (av_inv_q dst_fps) - 5|
        ≤ 1 := by
  decide


/-- C10, as amended. In every run of `main`, followed for any fuel:

* draining: if no receive call of the run failed (each returned a packet or
  reported "no output available" or end of stream), then in the sequence of
  codec calls every submission, frame or flush, that the codec accepted is
  directly followed by receive calls, the receive calls go on for as long as
  packets are returned, and the next submission comes only directly after a
  receive call with which the codec reported that it has no more output;
  and when `main` returns 0, so that the trailer is written, the last codec
  call is such a receive call too (or a submission the codec refused, which
  hands nothing to the codec): the last submission, the flush, is drained
  like every other.  What follows a failed receive call is the matter of C4
  and no part of this statement;
* order of calls in every run, failed receive calls included: the same with
  "returned a negative code" in place of "reported that it has no more
  output";
* forwarding: the packets written to the container are the packets the
  codec returned, in the same order, none dropped or duplicated (each with
  stream index 0 and rescaled timestamps, the payload untouched);
* count: when `main` returns 0 the one final count it reports is the number
  of packets written modulo 2^32, the counter being an `unsigned`: it is the
  number of packets written whenever fewer than 2^32 were written. -/
theorem packets_drained_and_forwarded (env : Env) (fuel : Nat) :
    ((∀ c ∈ codecCalls (main env fuel).trace, receiveDidNotFail c) →
        List.Chain' drainedBefore (codecCalls (main env fuel).trace) ∧
        ((main env fuel).outcome = .exit 0 →
          ∀ x ∈ (codecCalls (main env fuel).trace).getLast?, drainEnded x)) ∧
      (List.Chain' receivesUntilNegative (codecCalls (main env fuel).trace) ∧
        ((main env fuel).outcome = .exit 0 →
          ∀ x ∈ (codecCalls (main env fuel).trace).getLast?, returnedNegative x)) ∧
      writtenPackets (main env fuel).trace =
        (receivedPackets (main env fuel).trace).map
          (forwarded (env.codecTimeBase (av_inv_q dst_fps))
            (env.streamTimeBase (av_inv_q dst_fps))) ∧
      (writtenPackets (main env fuel).trace).map (fun p => p.data) =
        (receivedPackets (main env fuel).trace).map (fun p => p.data) ∧
      ((main env fuel).outcome = .exit 0 →
        finalCounts (main env fuel).trace =
          [(writtenPackets (main env fuel).trace).length % UINT_SIZE]) ∧
      ((main env fuel).outcome = .exit 0 →
        (writtenPackets (main env fuel).trace).length < UINT_SIZE →
        finalCounts (main env fuel).trace = [(writtenPackets (main env fuel).trace).length]) := by
  obtain ⟨hchain, hlast⟩ := main_calls env fuel
  refine ⟨?_, ⟨hchain, hlast⟩, main_written env fuel, ?_, main_finalCounts env fuel, ?_⟩
  · intro hok
    refine ⟨chain_drainedBefore _ hchain hok, ?_⟩
    intro hexit x hx
    exact drainEnded_of_returnedNegative x (hlast hexit x hx)
      (hok x (List.mem_of_mem_getLast? hx))
  · rw [main_written env fuel, List.map_map]
    rfl
  · intro h hlt
    rw [main_finalCounts env fuel h, Nat.mod_eq_of_lt hlt]

/-- C9. In every run of `main`, followed for any fuel, with positive codec
and stream time-bases: if the presentation timestamps of the packets the
codec returned are non-decreasing in the order returned, so are the
presentation timestamps of the packets handed to the container writer, in
write order; and the same for the decode timestamps. -/
theorem written_timestamps_monotone (env : Env) (fuel : Nat)
    (hc : 0 < (env.codecTimeBase (av_inv_q dst_fps)).num ∧
      0 < (env.codecTimeBase (av_inv_q dst_fps)).den)
    (hs : 0 < (env.streamTimeBase (av_inv_q dst_fps)).num ∧
      0 < (env.streamTimeBase (av_inv_q dst_fps)).den) :
    (List.Pairwise (· ≤ ·) ((receivedPackets (main env fuel).trace).map (fun p => p.pts)) →
        List.Pairwise (· ≤ ·) ((writtenPackets (main env fuel).trace).map (fun p => p.pts))) ∧
      (List.Pairwise (· ≤ ·) ((receivedPackets (main env fuel).trace).map (fun p => p.dts)) →
        List.Pairwise (· ≤ ·) ((writtenPackets (main env fuel).trace).map (fun p => p.dts))) := by
  have hn : 0 ≤ (env.codecTimeBase (av_inv_q dst_fps)).num *
      (env.streamTimeBase (av_inv_q dst_fps)).den := le_of_lt (mul_pos hc.1 hs.2)
  have hd : 0 < (env.codecTimeBase (av_inv_q dst_fps)).den *
      (env.streamTimeBase (av_inv_q dst_fps)).num := mul_pos hc.2 hs.1
  rw [main_written env fuel]
  simp only [List.map_map]
  constructor
  · intro h
    rw [List.pairwise_map] at h ⊢
    exact h.imp (fun hle => rescale_mono _ _ _ _ hn hd hle)
  · intro h
    rw [List.pairwise_map] at h ⊢
    exact h.imp (fun hle => rescale_mono _ _ _ _ hn hd hle)

/-- C6, as amended. When `main` returns 0, its trace ends with the trailer
write, the final count and the four release calls `av_frame_free`,
`avcodec_close`, `avio_close`, `avformat_free_context`, and these are the
only release calls of the run: the frame, the codec context, the output I/O
handle and the output format context are each released exactly once, in this
order.  When `main` returns another code (an early return before the loop),
it has made no release call. -/
theorem release_calls (env : Env) (fuel : Nat) :
    ((main env fuel).outcome = .exit 0 →
        (∃ pre n, (main env fuel).trace = pre ++ [.av_write_trailer, .cout_frames_encoded n,
          .av_frame_free, .avcodec_close, .avio_close, .avformat_free_context]) ∧
        (main env fuel).trace.filterMap releases =
          [.frame, .codecContext, .ioHandle, .formatContext]) ∧
      (∀ code, code ≠ 0 → (main env fuel).outcome = .exit code →
        (main env fuel).trace.filterMap releases = []) := by
  constructor
  · intro h
    obtain ⟨ev, hset, hend⟩ := main_exit_zero env fuel h
    have htr := main_trace_of_ready env fuel ev hset
    have hs := setup_events_inSetup env
    rw [hset] at hs
    have hev : ev.filterMap releases = [] :=
      List.filterMap_eq_nil_iff.mpr (fun e he => releases_inSetup e (hs e he))
    have hloop : (mainLoop env fuel).events.filterMap releases = [] :=
      filterMap_eq_nil_of_inLoop _ releases_inLoop _ (encodeLoop_events_inLoop _ _ _ _ _)
    simp only [tailEvents, hend] at htr
    refine ⟨⟨ev ++ (mainLoop env fuel).events, (mainLoop env fuel).state.encoded_frames, ?_⟩, ?_⟩
    · rw [htr]
      rfl
    · rw [htr]
      simp only [List.filterMap_append, hev, hloop, List.nil_append]
      rfl
  · intro code hcode h
    obtain ⟨ev, out, hset⟩ := main_exit_nonzero env fuel code hcode h
    exact main_filterMap_stop releases releases_inSetup env fuel ev out hset

/-! ## More fuel does not change a run that ended -/

theorem drain_fuel_stable (env : Env) (a b : AVRational) (fuel : Nat) (ret : Int) (r c : Nat)
    (h : (drain env a b fuel ret r c).finished = true) :
    drain env a b (fuel + 1) ret r c = drain env a b fuel ret r c := by
  induction fuel generalizing ret r c with
  | zero => simp [drain] at h
  | succ n ih =>
    rw [drain]
    conv_rhs => rw [drain]
    rw [drain] at h
    dsimp only at h ⊢
    split_ifs at h ⊢ with h0 h1 h2
    · rfl
    · rfl
    · rw [ih _ _ _ h]
    · rfl

theorem sendAndDrain_fuel_stable (env : Env) (a b : AVRational) (fuel : Nat)
    (frame : Option Int) (st : LoopState)
    (h : (sendAndDrain env a b fuel frame st).stop ≠ some .outOfFuel) :
    sendAndDrain env a b (fuel + 1) frame st = sendAndDrain env a b fuel frame st := by
  simp only [sendAndDrain] at h ⊢
  split_ifs at h with h1 h2
  · simp [h1]
  · simp at h
  · have hfin : (drain env a b fuel (env.sendRet st.sends) st.receives
        st.encoded_frames).finished = true := by simpa using h2
    rw [drain_fuel_stable env a b fuel _ _ _ hfin]

theorem loopBody_fuel_stable (env : Env) (a b : AVRational) (fuel : Nat) (st : LoopState)
    (h : (loopBody env a b fuel st).stop ≠ some .outOfFuel) :
    loopBody env a b (fuel + 1) st = loopBody env a b fuel st := by
  simp only [loopBody] at h ⊢
  split_ifs at h ⊢ with h1 h2
  · rfl
  · rw [sendAndDrain_fuel_stable env a b fuel _ _ h]
  · rw [sendAndDrain_fuel_stable env a b fuel _ _ h]

theorem encodeLoop_fuel_stable (env : Env) (a b : AVRational) (fuel : Nat) (st : LoopState)
    (h : (encodeLoop env a b fuel st).ending ≠ .outOfFuel) :
    encodeLoop env a b (fuel + 1) st = encodeLoop env a b fuel st := by
  induction fuel generalizing st with
  | zero => simp [encodeLoop] at h
  | succ n ih =>
    rw [encodeLoop]
    conv_rhs => rw [encodeLoop]
    rw [encodeLoop] at h
    dsimp only at h ⊢
    have hb : (loopBody env a b n st).stop ≠ some .outOfFuel := by
      intro hstop
      simp [hstop] at h
    rw [loopBody_fuel_stable env a b n st hb]
    cases hs : (loopBody env a b n st).stop with
    | some ending => rfl
    | none =>
      simp only [hs] at h ⊢
      split_ifs at h ⊢ with hfl
      · rw [ih _ h]
      · rfl

/-- A run of `main` that ended (returned, or ran into undefined behaviour)
is the same with more fuel: the fuel only decides how far a run is followed. -/
theorem main_fuel_stable (env : Env) (fuel : Nat)
    (h : (main env fuel).outcome ≠ .outOfFuel) : main env (fuel + 1) = main env fuel := by
  cases hset : setup env with
  | stop ev out => simp [main, hset]
  | ready ev =>
    have hend : (mainLoop env fuel).ending ≠ .outOfFuel := by
      intro hend
      simp [main, hset, hend] at h
    simp only [main, hset]
    simp only [mainLoop] at hend ⊢
    rw [encodeLoop_fuel_stable env _ _ fuel loopStart hend]

/-! ## Concrete runs -/

/-- C1, witness: the run of `twoFrames`. -/
theorem header_once_before_packets_witness :
    setup twoFrames = .ready setupDone ∧
      headerWrites (main twoFrames 6).trace = [0] ∧
      ∀ pre packet post, (main twoFrames 6).trace = pre ++ .av_write_frame packet :: post →
        Event.avformat_write_header 0 ∈ pre :=
  ⟨by decide, header_once_before_packets twoFrames 6 setupDone (by decide)⟩

/-- C7, witness: the run of `noCamera`. -/
theorem device_open_failure_witness :
    2 ≤ noCamera.argc ∧ noCamera.cameraOpened = false ∧
      main noCamera 0 =
        ⟨[.av_register_all, .VideoCapture_open false, .cerr .failedToOpenVideoCapture],
          .exit 2⟩ :=
  ⟨by decide, rfl, (device_open_failure noCamera 0 (by decide) rfl).1⟩

/-- C2, counterexample to the claim as stated: in the run of `sendFails` the
first frame submission fails, the loop is left, `main` writes the trailer
and returns 0, and the flush signal was never submitted. -/
theorem flush_not_submitted_counterexample :
    main sendFails 1 =
        ⟨setupDone ++ [.capture, .imshow, .waitKey (-1), .sws_scale, .av_init_packet,
            .avcodec_send_frame (some 0) (-22), .cerr .errorEncodingFrame] ++ finish 0,
          .exit 0⟩ ∧
      flushCount (main sendFails 1).trace = 0 := by
  decide

/-- C2, witness: in the run of `twoFrames` ESC is polled, and the flush
signal is submitted exactly once, after the two frames. -/
theorem flush_at_most_once_and_last_witness :
    KEY_ESC ∈ keysPolled (main twoFrames 6).trace ∧
      submissions (main twoFrames 6).trace = [some 0, some 1] ++ none :: [] ∧
      flushCount (main twoFrames 6).trace = 1 ∧ ([] : List (Option Int)) = [] :=
  ⟨by decide, by decide,
    (flush_at_most_once_and_last twoFrames 6).2.2.mpr (by decide),
    (flush_at_most_once_and_last twoFrames 6).2.1 [some 0, some 1] [] (by decide)⟩

/-- C9, witness: the run of `twoFrames`, both time-bases 1/24: the codec
returns packets with presentation timestamps 0, 1, 2, and they are written
with non-decreasing presentation timestamps. -/
theorem written_timestamps_monotone_witness :
    (0 < (twoFrames.codecTimeBase (av_inv_q dst_fps)).num ∧
        0 < (twoFrames.codecTimeBase (av_inv_q dst_fps)).den) ∧
      (0 < (twoFrames.streamTimeBase (av_inv_q dst_fps)).num ∧
        0 < (twoFrames.streamTimeBase (av_inv_q dst_fps)).den) ∧
      (receivedPackets (main twoFrames 6).trace).map (fun p => p.pts) = [0, 1, 2] ∧
      List.Pairwise (· ≤ ·) ((receivedPackets (main twoFrames 6).trace).map (fun p => p.pts)) ∧
      List.Pairwise (· ≤ ·) ((writtenPackets (main twoFrames 6).trace).map (fun p => p.pts)) :=
  ⟨by decide, by decide, by decide, by decide,
    (written_timestamps_monotone twoFrames 6 (by decide) (by decide)).1 (by decide)⟩

/-- C10, witness: in the run of `twoFrames` no receive call fails and `main`
returns 0.  Each of the three submissions, the flush included, is followed
by a receive call that returns a packet and one that reports no more
output; fewer than 2^32 packets are written and the final count is 3, the
number of packets written. -/
theorem packets_drained_and_forwarded_witness :
    (∀ c ∈ codecCalls (main twoFrames 6).trace, receiveDidNotFail c) ∧
      (main twoFrames 6).outcome = .exit 0 ∧
      (writtenPackets (main twoFrames 6).trace).length < UINT_SIZE ∧
      codecCalls (main twoFrames 6).trace =
        [.send (some 0) 0, .receive 0, .receive AVERROR_EAGAIN,
          .send (some 1) 0, .receive 0, .receive AVERROR_EAGAIN,
          .send none 0, .receive 0, .receive AVERROR_EOF] ∧
      List.Chain' drainedBefore (codecCalls (main twoFrames 6).trace) ∧
      (∀ x ∈ (codecCalls (main twoFrames 6).trace).getLast?, drainEnded x) ∧
      finalCounts (main twoFrames 6).trace = [3] ∧
      finalCounts (main twoFrames 6).trace = [(writtenPackets (main twoFrames 6).trace).length] :=
  ⟨by decide, by decide, by decide, by decide,
    ((packets_drained_and_forwarded twoFrames 6).1 (by decide)).1,
    ((packets_drained_and_forwarded twoFrames 6).1 (by decide)).2 (by decide),
    by decide,
    (packets_drained_and_forwarded twoFrames 6).2.2.2.2.2 (by decide) (by decide)⟩

/-- C6, witness: the run of `twoFrames` returns 0 and makes the four release
calls. -/
theorem release_calls_witness :
    (main twoFrames 6).outcome = .exit 0 ∧
      (main twoFrames 6).trace.filterMap releases =
        [.frame, .codecContext, .ioHandle, .formatContext] :=
  ⟨by decide, ((release_calls twoFrames 6).1 (by decide)).2⟩

/-- C6, counterexample to the claim as stated: in the run of
`outputOpenFails` the output format context is allocated, `avio_open2`
fails, and `main` returns 2 without a release call: the output format
context is acquired and never released. -/
theorem release_on_error_counterexample :
    main outputOpenFails 0 =
        ⟨[.av_register_all, .VideoCapture_open true, .VideoCapture_set,
            .avformat_alloc_output_context2 0, .avio_open2 (-2),
            .cerr .failedToOpenIOContext], .exit 2⟩ ∧
      (main outputOpenFails 0).trace.filterMap acquires = [.formatContext] ∧
      (main outputOpenFails 0).trace.filterMap releases = [] := by
  decide

/-- C4, the code at the failing input: in the run of `receiveFails` the
receive call after the first frame fails with -22 and the error line is
written; the loop goes on: a second image is read, a second frame is
submitted, and only ESC in the third pass ends the loop. -/
theorem receive_error_continues :
    main receiveFails 4 =
      ⟨setupDone ++
          [.capture, .imshow, .waitKey (-1), .sws_scale, .av_init_packet,
            .avcodec_send_frame (some 0) 0,
            .avcodec_receive_packet (-22) ⟨0, 0, 0, 0⟩, .cerr .errorDuringEncoding,
            .capture, .imshow, .waitKey (-1), .sws_scale, .av_init_packet,
            .avcodec_send_frame (some 1) 0,
            .avcodec_receive_packet AVERROR_EAGAIN ⟨1, 0, 0, 0⟩,
            .capture, .imshow, .waitKey KEY_ESC, .av_init_packet,
            .avcodec_send_frame none 0,
            .avcodec_receive_packet AVERROR_EAGAIN ⟨2, 0, 0, 0⟩] ++ finish 0,
        .exit 0⟩ := by
  decide

/-- C5, the code at the failing input: in the run of `headerFails` the
stream header write fails with -22; `main` writes no error line, enters the
loop, and returns 0. -/
theorem header_failure_ignored :
    main headerFails 2 =
      ⟨[.av_register_all, .VideoCapture_open true, .VideoCapture_set,
          .avformat_alloc_output_context2 0, .avio_open2 0, .avcodec_find_encoder true,
          .avcodec_alloc_context3 true, .avcodec_open2 0, .cout_summary,
          .avformat_new_stream true, .avcodec_parameters_from_context 0,
          .avformat_write_header (-22), .sws_getCachedContext true, .av_frame_alloc true,
          .av_mallocz true, .av_image_fill_arrays, .av_freep,
          .capture, .imshow, .waitKey KEY_ESC, .av_init_packet,
          .avcodec_send_frame none 0, .avcodec_receive_packet AVERROR_EOF ⟨0, 0, 0, 0⟩] ++
          finish 0,
        .exit 0⟩ := by
  decide

theorem drain_one_packet (env : Env) (a b : AVRational) (fuel r c : Nat)
    (h0 : env.receiveRet r = 0) (h1 : env.receiveRet (r + 1) = AVERROR_EAGAIN) :
    drain env a b (fuel + 1 + 1) 0 r c =
      ⟨[.avcodec_receive_packet 0 (env.receivePacket r),
          .av_write_frame (forwarded a b (env.receivePacket r)),
          .cout_progress c, .av_packet_unref,
          .avcodec_receive_packet AVERROR_EAGAIN (env.receivePacket (r + 1))],
        r + 1 + 1, (c + 1) % UINT_SIZE, true⟩ := by
  simp [drain, h0, h1, AVERROR_EAGAIN, AVERROR_EOF, forwarded]

theorem drain_end_of_stream (env : Env) (a b : AVRational) (fuel r c : Nat)
    (h0 : env.receiveRet r = AVERROR_EOF) :
    drain env a b (fuel + 1) 0 r c =
      ⟨[.avcodec_receive_packet AVERROR_EOF (env.receivePacket r)], r + 1, c, true⟩ := by
  simp [drain, h0]

/-- A pass that submits a frame for which the codec returns one packet. -/
theorem loopBody_frame_one_packet (env : Env) (a b : AVRational) (fuel : Nat)
    (st : LoopState) (hfl : st.is_flushing = false)
    (hkey : env.waitKey st.waitKeys ≠ KEY_ESC) (hov : ¬ INT64_MAX ≤ st.frame_pts)
    (hsend : env.sendRet st.sends = 0) (h0 : env.receiveRet st.receives = 0)
    (h1 : env.receiveRet (st.receives + 1) = AVERROR_EAGAIN) :
    loopBody env a b (fuel + 1 + 1) st =
      ⟨[.capture, .imshow, .waitKey (env.waitKey st.waitKeys), .sws_scale, .av_init_packet,
          .avcodec_send_frame (some st.frame_pts) 0,
          .avcodec_receive_packet 0 (env.receivePacket st.receives),
          .av_write_frame (forwarded a b (env.receivePacket st.receives)),
          .cout_progress st.encoded_frames, .av_packet_unref,
          .avcodec_receive_packet AVERROR_EAGAIN (env.receivePacket (st.receives + 1))],
        { frame_pts := st.frame_pts + 1, encoded_frames := (st.encoded_frames + 1) % UINT_SIZE,
          is_flushing := false, waitKeys := st.waitKeys + 1, sends := st.sends + 1,
          receives := st.receives + 1 + 1 }, none⟩ := by
  have hd := drain_one_packet env a b fuel st.receives st.encoded_frames h0 h1
  simp [loopBody, pollFrame, sendAndDrain, hfl, hkey, hov, hsend, hd]

/-- A pass in which ESC is polled and the codec has nothing to flush. -/
theorem loopBody_flush_nothing (env : Env) (a b : AVRational) (fuel : Nat)
    (st : LoopState) (hfl : st.is_flushing = false)
    (hkey : env.waitKey st.waitKeys = KEY_ESC)
    (hsend : env.sendRet st.sends = 0) (h0 : env.receiveRet st.receives = AVERROR_EOF) :
    loopBody env a b (fuel + 1) st =
      ⟨[.capture, .imshow, .waitKey KEY_ESC, .av_init_packet, .avcodec_send_frame none 0,
          .avcodec_receive_packet AVERROR_EOF (env.receivePacket st.receives)],
        { frame_pts := st.frame_pts, encoded_frames := st.encoded_frames,
          is_flushing := true, waitKeys := st.waitKeys + 1, sends := st.sends + 1,
          receives := st.receives + 1 }, none⟩ := by
  have hd := drain_end_of_stream env a b fuel st.receives st.encoded_frames h0
  simp [loopBody, pollFrame, sendAndDrain, hfl, hkey, hsend, hd]

theorem encodeLoop_next (env : Env) (a b : AVRational) (fuel : Nat) (st : LoopState)
    (B : BodyResult) (hB : loopBody env a b fuel st = B) (hstop : B.stop = none)
    (hfl : B.state.is_flushing = false) :
    encodeLoop env a b (fuel + 1) st =
      ⟨B.events ++ (encodeLoop env a b fuel B.state).events,
        (encodeLoop env a b fuel B.state).state, (encodeLoop env a b fuel B.state).ending⟩ := by
  rw [encodeLoop]
  simp only [hB, hstop, hfl]
  rfl

theorem encodeLoop_last (env : Env) (a b : AVRational) (fuel : Nat) (st : LoopState)
    (B : BodyResult) (hB : loopBody env a b fuel st = B) (hstop : B.stop = none)
    (hfl : B.state.is_flushing = true) :
    encodeLoop env a b (fuel + 1) st = ⟨B.events, B.state, .left⟩ := by
  rw [encodeLoop]
  simp only [hB, hstop, hfl]
  rfl

theorem longCapture_loop (k : Nat) (a b : AVRational) (hk : (k : Int) ≤ INT64_MAX) :
    ∀ j i c, i + j = k →
      (encodeLoop (longCapture k) a b (j + 1 + 1 + 1)
          { frame_pts := (i : Int), encoded_frames := c, is_flushing := false,
            waitKeys := i, sends := i, receives := 2 * i }).ending = .left ∧
        (writtenPackets (encodeLoop (longCapture k) a b (j + 1 + 1 + 1)
          { frame_pts := (i : Int), encoded_frames := c, is_flushing := false,
            waitKeys := i, sends := i, receives := 2 * i }).events).length = j := by
  intro j
  induction j with
  | zero =>
    intro i c hi
    have hik : i = k := by omega
    subst hik
    have hr : (longCapture i).receiveRet (2 * i) = AVERROR_EOF := by
      simp [longCapture, session]
    have hkey : (longCapture i).waitKey i = KEY_ESC := by simp [longCapture, session]
    have hB := loopBody_flush_nothing (longCapture i) a b 1
      { frame_pts := (i : Int), encoded_frames := c, is_flushing := false,
        waitKeys := i, sends := i, receives := 2 * i } rfl hkey rfl hr
    rw [encodeLoop_last _ a b _ _ _ hB rfl rfl]
    exact ⟨rfl, rfl⟩
  | succ j ih =>
    intro i c hi
    have hik : i < k := by omega
    have h4 : ¬ INT64_MAX ≤ (i : Int) := by
      have : (i : Int) < k := by exact_mod_cast hik
      linarith
    have hr0 : (longCapture k).receiveRet (2 * i) = 0 := by
      have h1 : 2 * i < 2 * k := by omega
      simp [longCapture, session, h1]
    have hr1 : (longCapture k).receiveRet (2 * i + 1) = AVERROR_EAGAIN := by
      have h2 : 2 * i + 1 < 2 * k := by omega
      have h3 : (2 * i + 1) % 2 = 1 := by omega
      simp [longCapture, session, h2, h3]
    have hkey : (longCapture k).waitKey i ≠ KEY_ESC := by
      simp [longCapture, session, hik, KEY_ESC]
    have hB := loopBody_frame_one_packet (longCapture k) a b (j + 1)
      { frame_pts := (i : Int), encoded_frames := c, is_flushing := false,
        waitKeys := i, sends := i, receives := 2 * i } rfl hkey h4 rfl hr0 hr1
    obtain ⟨ih1, ih2⟩ := ih (i + 1) ((c + 1) % UINT_SIZE) (by omega)
    have e1 : 2 * (i + 1) = 2 * i + 1 + 1 := by ring
    have e2 : ((i + 1 : Nat) : Int) = (i : Int) + 1 := by push_cast; ring
    rw [e1, e2] at ih1 ih2
    rw [encodeLoop_next _ a b _ _ _ hB rfl rfl]
    refine ⟨ih1, ?_⟩
    simp only [writtenPackets, List.filterMap_append] at ih2 ⊢
    rw [List.length_append, ih2]
    simp [asWritten, Nat.add_comm]

/-- A capture of `k` frames, each yielding one packet: `main` returns 0 and
has written `k` packets. -/
theorem longCapture_run (k : Nat) (hk : (k : Int) ≤ INT64_MAX) :
    (main (longCapture k) (k + 1 + 1 + 1)).outcome = .exit 0 ∧
      (writtenPackets (main (longCapture k) (k + 1 + 1 + 1)).trace).length = k := by
  have hset : setup (longCapture k) = .ready setupDone := rfl
  obtain ⟨h1, h2⟩ := longCapture_loop k ((longCapture k).codecTimeBase (av_inv_q dst_fps))
    ((longCapture k).streamTimeBase (av_inv_q dst_fps)) hk k 0 0 (by omega)
  have hloop : (mainLoop (longCapture k) (k + 1 + 1 + 1)).ending = .left := h1
  have hw := main_filterMap_ready asWritten asWritten_inSetup (fun _ => rfl)
    (longCapture k) (k + 1 + 1 + 1) setupDone hset
  constructor
  · simp only [main, hset, hloop]
  · simp only [writtenPackets]
    rw [hw]
    exact h2

/-- C10, counterexample to the claim as stated, in two runs.

The count: in a capture of 2^32 frames, each encoded into one packet, `main`
returns 0, has written 2^32 packets, and reports 0 as the final count.

The draining: in the run of `receiveFails` the receive call after the first
submission fails with -22, so the codec never reported that it has no more
output, and the next codec call is the submission of the second frame. -/
theorem packets_drained_and_forwarded_counterexample :
    ((main (longCapture (2 ^ 32)) (2 ^ 32 + 1 + 1 + 1)).outcome = .exit 0 ∧
        (writtenPackets (main (longCapture (2 ^ 32)) (2 ^ 32 + 1 + 1 + 1)).trace).length =
          2 ^ 32 ∧
        finalCounts (main (longCapture (2 ^ 32)) (2 ^ 32 + 1 + 1 + 1)).trace = [0]) ∧
      (codecCalls (main receiveFails 4).trace =
          [.send (some 0) 0, .receive (-22), .send (some 1) 0, .receive AVERROR_EAGAIN,
            .send none 0, .receive AVERROR_EAGAIN] ∧
        ¬ List.Chain' drainedBefore (codecCalls (main receiveFails 4).trace)) := by
  obtain ⟨h1, h2⟩ := longCapture_run (2 ^ 32) (by decide)
  have hcalls : codecCalls (main receiveFails 4).trace =
      [.send (some 0) 0, .receive (-22), .send (some 1) 0, .receive AVERROR_EAGAIN,
        .send none 0, .receive AVERROR_EAGAIN] := by decide
  refine ⟨⟨h1, h2, ?_⟩, hcalls, ?_⟩
  · rw [main_finalCounts _ _ h1, h2]
    rfl
  · intro h
    rw [hcalls] at h
    have hstep : drainedBefore (.receive (-22)) (.send (some 1) 0) :=
      (List.chain'_cons.mp (List.chain'_cons.mp h).2).1
    exact absurd hstep (by decide)

end FfmpegOpenCV
